import Mathlib

/-!
Shallow embedding of the core of the `binance_monitor_helper` repository
(order-event aggregation, order classification, notification routing, the
position rule engine, the alert limiter, the position digest card and the
account metrics provider), together with theorems checking the repository's
specification against this embedding.

Conventions used throughout:
* JavaScript `number` values are modelled as `ℚ` (for decimal quantities) or
  as `Int` (for epoch-millisecond timestamps and millisecond durations, which
  are integral in every use site of the source).
* JavaScript `Map`/`Set` objects are modelled either as association lists
  (`List (String × α)`, preserving insertion order, `msetA` mirroring
  `Map.set`) or, where iteration order is irrelevant, as functions
  `String → Option α`.
* Decimal strings are parsed with `parseDec`, mirroring `big.js` input
  syntax without exponents (no use site feeds exponent forms).
* Display-only fields (`message`, free-form `details` records, rendered
  card elements) are not modelled; every field a theorem below mentions is
  translated from the source.
-/

/-- ASCII single-character uppercasing, the fragment of JavaScript
`String.prototype.toUpperCase` exercised by the repository's inputs. -/
def jsCharUpper (c : Char) : Char :=
  if 'a' ≤ c ∧ c ≤ 'z' then Char.ofNat (c.toNat - 32) else c

/-- Uppercasing of a whole string (`toUpperCase`). -/
def jsUpper (s : String) : String := ⟨s.data.map jsCharUpper⟩

/-- Whitespace predicate used by `trim`. -/
def jsIsWs (c : Char) : Bool := c = ' ' ∨ c = '\t' ∨ c = '\n' ∨ c = '\r'

/-- JavaScript `String.prototype.trim` on ASCII whitespace. -/
def jsTrim (s : String) : String :=
  ⟨((s.data.dropWhile jsIsWs).reverse.dropWhile jsIsWs).reverse⟩

/-- JavaScript `String.prototype.startsWith`. -/
def strStartsWith (s p : String) : Bool := p.data.isPrefixOf s.data

/-- JavaScript `String.prototype.includes` (substring containment). -/
def strIncludes (s sub : String) : Bool :=
  s.data.tails.any (fun t => sub.data.isPrefixOf t)

/-- Rendering of an integer the way a JavaScript template literal renders an
integral `number`. -/
def intRepr (n : Int) : String :=
  if n < 0 then "-" ++ Nat.repr (-n).toNat else Nat.repr n.toNat

/-- Numeric value of a list of ASCII digits (the behaviour of
`Number.parseInt(digits, 10)` on a pure digit string). -/
def digitsToNat (cs : List Char) : Nat :=
  cs.foldl (fun a c => a * 10 + (c.toNat - 48)) 0

/-- Decimal-string parsing as accepted by `new Big(value)`: an optional minus
sign, then either `digits`, `digits.digits*` or `.digits`.  Exponent forms
are not modelled (no use site produces them).  Returns `none` where the
`Big` constructor throws. -/
def parseDec (s : String) : Option ℚ :=
  let (neg, rest) :=
    match s.data with
    | '-' :: t => (true, t)
    | t => (false, t)
  let ip := rest.takeWhile Char.isDigit
  let tail := rest.drop ip.length
  let build : Nat → Nat → Option ℚ := fun num scale =>
    some (mkRat (if neg then -(num : Int) else (num : Int)) (10 ^ scale))
  match tail with
  | [] => if ip.isEmpty then none else build (digitsToNat ip) 0
  | '.' :: fp =>
    if fp.all Char.isDigit ∧ ¬(ip.isEmpty ∧ fp.isEmpty) then
      build (digitsToNat ip * 10 ^ fp.length + digitsToNat fp) fp.length
    else none
  | _ => none

/-- Map update with JavaScript `Map.prototype.set` semantics on an
association list: replace the first binding in place, else append. -/
def msetA {α : Type} : List (String × α) → String → α → List (String × α)
  | [], k, v => [(k, v)]
  | p :: t, k, v => if p.1 = k then (k, v) :: t else p :: msetA t k v

/-- Insertion preserving order and uniqueness (`Set.prototype.add`). -/
def insertUnique (l : List String) (x : String) : List String :=
  if x ∈ l then l else l ++ [x]

/-- The ordered key set of a `new Set(xs)` construction. -/
def setFrom (xs : List String) : List String := xs.foldl insertUnique []

/-! ## Order classification (`src/orders/orderClassification.ts`) -/

/-- Order category kinds produced by `classifyOrder`. -/
inductive OrderCategoryKind
  | tp
  | sl
  | ft
  | tw
  | other
deriving DecidableEq, Repr

/-- Output of `classifyOrder`: kind, optional ladder level, optional time
frame and the raw client order id. -/
structure OrderCategory where
  kind : OrderCategoryKind
  level : Option Nat := none
  timeFrame : Option String := none
  rawClientOrderId : String
deriving DecidableEq, Repr

/-- Modelled from the spec: `extractTimeWindowFromClientOrderId` is exported
by the full `orders/types.ts` but its definition is not present under `src/`;
the spec describes the time frame as the substring after the `TW_` underscore
up to the next separator. -/
def extractTimeWindowFromClientOrderId (clientOrderId : String) : Option String :=
  let upper := jsUpper (jsTrim clientOrderId)
  if strStartsWith upper "TW_" then
    let rest := (upper.data.drop 3).takeWhile (fun c => c ≠ '_' ∧ c ≠ '-')
    if rest.isEmpty then none else some ⟨rest⟩
  else none

/-- Translation of `classifyOrder`: trims and uppercases the client order id,
then tests the `TW_`, `TP`, `SL`, `FT` markers in this order; the regular
expressions `^TP(\d+)` and `^SL(\d+)` are rendered as the maximal digit run
following the two-letter marker. -/
def classifyOrder (clientOrderId : String) : OrderCategory :=
  let normalized := jsTrim clientOrderId
  let upper := jsUpper normalized
  if strStartsWith upper "TW_" then
    { kind := .tw
      timeFrame := extractTimeWindowFromClientOrderId clientOrderId
      rawClientOrderId := clientOrderId }
  else if strStartsWith upper "TP" then
    let ds := (upper.data.drop 2).takeWhile Char.isDigit
    { kind := .tp
      level := if ds.isEmpty then none else some (digitsToNat ds)
      rawClientOrderId := clientOrderId }
  else if strStartsWith upper "SL" then
    let ds := (upper.data.drop 2).takeWhile Char.isDigit
    { kind := .sl
      level := if ds.isEmpty then none else some (digitsToNat ds)
      rawClientOrderId := clientOrderId }
  else if strStartsWith upper "FT" then
    { kind := .ft, rawClientOrderId := clientOrderId }
  else
    { kind := .other, rawClientOrderId := clientOrderId }

/-- Moving-stop label: `移动止损第N档` when a truthy finite level is present
(level `0` is falsy in JavaScript), else the umbrella label. -/
def resolveMovingStopLabel (category : OrderCategory) : String :=
  match category.level with
  | some n => if n ≠ 0 then "移动止损第" ++ Nat.repr n ++ "档" else "移动止损单"
  | none => "移动止损单"

/-- Hard-stop label, mirroring `resolveHardStopLabel`. -/
def resolveHardStopLabel (category : OrderCategory) : String :=
  match category.level with
  | some n => if n ≠ 0 then "硬止损第" ++ Nat.repr n ++ "档" else "硬止损单"
  | none => "硬止损单"

/-- Time-window stop label, mirroring `resolveTimeWindowStopLabel`. -/
def resolveTimeWindowStopLabel (category : OrderCategory) : String :=
  match category.timeFrame with
  | some tf => if jsTrim tf = "" then "时间周期止损单" else jsTrim tf ++ " 时间周期止损单"
  | none => "时间周期止损单"

/-- Lifecycle card title per category kind, mirroring `resolveLifecycleTitle`. -/
def resolveLifecycleTitle (symbol : String) (category : OrderCategory) : String :=
  match category.kind with
  | .tp => symbol ++ "-" ++ resolveMovingStopLabel category
  | .sl => symbol ++ "-" ++ resolveHardStopLabel category
  | .ft => symbol ++ "-追踪止损单"
  | .tw => symbol ++ "-" ++ resolveTimeWindowStopLabel category
  | .other => symbol ++ "-其他来源订单"

/-! ## Order presentation (`src/orders/types.ts`) -/

/-- Presentation attached to an aggregation context: source label,
classification tag and title suffix (`resolveOrderPresentation`). -/
structure OrderPresentation where
  source : String
  classification : String
  titleSuffix : String
deriving DecidableEq, Repr

/-- Translation of `resolveOrderPresentation` from `orders/types.ts`: prefix
table over the trimmed, uppercased client order id. -/
def resolveOrderPresentation (clientOrderId : String) : OrderPresentation :=
  let normalized := jsUpper (jsTrim clientOrderId)
  if strStartsWith normalized "FT" then
    { source := "追踪止损", classification := "FT", titleSuffix := "跟踪交易止损" }
  else if strStartsWith normalized "TP1" then
    { source := "止盈", classification := "TP1", titleSuffix := "反弹1/4减仓30%" }
  else if strStartsWith normalized "TP2" then
    { source := "止盈", classification := "TP2", titleSuffix := "反弹1/2减仓40%" }
  else if strStartsWith normalized "TP" then
    { source := "止盈", classification := "TP", titleSuffix := "止盈" }
  else if strStartsWith normalized "SL" then
    { source := "止损", classification := "SL", titleSuffix := "5%成本止损" }
  else
    { source := "其他", classification := "GENERAL", titleSuffix := "其他" }

/-! ## Order events (`src/orders/types.ts`, `src/orders/eventMapper.ts`) -/

/-- Typed projection of one `ORDER_TRADE_UPDATE` wire message, as produced by
`toOrderEvent`.  `Date` fields are carried as epoch milliseconds; the raw
mirror fields the aggregator reads back (`o.x`, `o.rp`) are inlined as
`execType` and `realizedPnl` because `toOrderEvent` copies them verbatim. -/
structure OrderEvent where
  symbol : String
  orderId : Nat
  clientOrderId : String
  originalClientOrderId : Option String := none
  side : String
  positionSide : Option String := none
  orderType : String
  status : String
  eventTimeMs : Int
  tradeTimeMs : Int
  originalQuantity : String
  cumulativeQuantity : String
  lastQuantity : String
  averagePrice : String
  lastPrice : String
  orderPrice : String
  stopPrice : Option String := none
  execType : String
  realizedPnl : Option String := none
  isMaker : Bool := false
deriving DecidableEq, Repr

/-- Canonical aggregation-context key `<symbol>:<orderId>:<clientOrderId>`. -/
def aggregationKey (e : OrderEvent) : String :=
  e.symbol ++ ":" ++ Nat.repr e.orderId ++ ":" ++ e.clientOrderId

/-! ## Notification dispatch (`src/orders/eventMapper.ts`,
`OrderNotificationService`) -/

/-- What `OrderNotificationService.handle` hands to a sink: a lifecycle card
(with the normalized status and, for expiries, the expiry reason) or a fill
card.  Card payload rendering is an external collaborator and is not
modelled. -/
inductive SinkSend
  | lifecycle (status : String) (expireReason : Option String)
  | fill
deriving DecidableEq, Repr

/-- Translation of `normalizeStatus`. -/
def normalizeStatus (status : String) : Option String :=
  let upper := jsUpper status
  if upper = "NEW" ∨ upper = "CANCELED" ∨ upper = "FILLED" then some upper
  else if upper = "EXPIRED" ∨ upper = "EXPIRED_IN_MATCH" then some "EXPIRED"
  else none

/-- Translation of `isLifecycleStatus`. -/
def isLifecycleStatus (status : String) : Bool :=
  status = "NEW" ∨ status = "CANCELED" ∨ status = "EXPIRED"

/-- Translation of `resolveExpireReason`; every branch of the source returns
a string. -/
def resolveExpireReason (e : OrderEvent) : String :=
  let executionType := jsUpper e.execType
  if executionType = "" then "订单超时未成交"
  else if executionType = "EXPIRED_IN_MATCH" then "撮合过程中超时 (EXPIRED_IN_MATCH)"
  else if executionType = "EXPIRED" then "超过有效期自动过期"
  else "执行状态: " ++ executionType

/-- Dedup key of the dispatcher
(`orderId:clientOrderId:status:eventTime:cumQty:lastQty`). -/
def buildDedupKey (e : OrderEvent) : String :=
  Nat.repr e.orderId ++ ":" ++ e.clientOrderId ++ ":" ++ e.status ++ ":" ++
    intRepr e.eventTimeMs ++ ":" ++ e.cumulativeQuantity ++ ":" ++ e.lastQuantity

/-- Dispatcher dedup cache with 60 s TTL and a 2000-entry overflow reset. -/
def dedupPrune (now : Int) (cache : List (String × Int)) : List (String × Int) :=
  let kept := cache.filter (fun p => ¬(now - p.2 > 60000))
  if kept.length > 2000 then [] else kept

/-- Translation of `OrderNotificationService.handle` with `Date.now()` made
an explicit `now` parameter; the returned `Option SinkSend` records which
sink, if any, receives a card. -/
def OrderNotificationService.handle (now : Int) (cache : List (String × Int))
    (e : OrderEvent) : List (String × Int) × Option SinkSend :=
  let key := buildDedupKey e
  let pruned := dedupPrune now cache
  if (pruned.lookup key).isSome then (pruned, none)
  else
    let cache2 := msetA pruned key now
    match normalizeStatus e.status with
    | none => (cache2, none)
    | some ns =>
      if isLifecycleStatus ns then
        (cache2, some (.lifecycle ns (if ns = "EXPIRED" then some (resolveExpireReason e) else none)))
      else if ns = "FILLED" then (cache2, some .fill)
      else (cache2, none)

/-! ## Positions domain (`src/positions/types.ts`) -/

/-- Position direction. -/
inductive PosDirection
  | long
  | short
deriving DecidableEq, Repr

/-- Rendering of a `PositionDirection` string literal. -/
def PosDirection.repr : PosDirection → String
  | .long => "long"
  | .short => "short"

/-- Issue direction: positional or account-wide. -/
inductive IssueDirection
  | long
  | short
  | global
deriving DecidableEq, Repr

/-- Rendering of an issue direction string literal. -/
def IssueDirection.repr : IssueDirection → String
  | .long => "long"
  | .short => "short"
  | .global => "global"

/-- Coercion of a position direction into an issue direction. -/
def PosDirection.toIssueDirection : PosDirection → IssueDirection
  | .long => .long
  | .short => .short

/-- Issue severity. -/
inductive Severity
  | warning
  | critical
deriving DecidableEq, Repr

/-- Validation rule identifiers of the current rule engine. -/
inductive RuleKind
  | whitelist_violation
  | blacklist_violation
  | config_error
  | leverage_limit
  | margin_share_limit
  | total_margin_usage
  | funding_rate_limit
  | data_missing
  | oi_share_limit
  | oi_minimum
  | market_cap_minimum
  | volume_24h_minimum
  | concentration_hhi_limit
deriving DecidableEq, Repr

/-- Rendering of a rule identifier string literal (used by the alert-limiter
issue key). -/
def RuleKind.repr : RuleKind → String
  | .whitelist_violation => "whitelist_violation"
  | .blacklist_violation => "blacklist_violation"
  | .config_error => "config_error"
  | .leverage_limit => "leverage_limit"
  | .margin_share_limit => "margin_share_limit"
  | .total_margin_usage => "total_margin_usage"
  | .funding_rate_limit => "funding_rate_limit"
  | .data_missing => "data_missing"
  | .oi_share_limit => "oi_share_limit"
  | .oi_minimum => "oi_minimum"
  | .market_cap_minimum => "market_cap_minimum"
  | .volume_24h_minimum => "volume_24h_minimum"
  | .concentration_hhi_limit => "concentration_hhi_limit"

/-- One account position snapshot.  `updatedAt` is epoch milliseconds. -/
structure PositionSnapshot where
  baseAsset : String
  symbol : String
  positionAmt : ℚ
  notional : ℚ
  leverage : ℚ
  initialMargin : ℚ
  isolatedMargin : ℚ := 0
  marginType : String := "cross"
  direction : PosDirection
  markPrice : ℚ := 0
  predictedFundingRate : Option ℚ
  updatedAt : Int := 0
deriving DecidableEq, Repr

/-- Account context as fetched by the account fetcher. -/
structure AccountContext where
  totalInitialMargin : ℚ
  totalMarginBalance : ℚ
  availableBalance : ℚ
  snapshots : List PositionSnapshot
  fetchedAt : Int
deriving DecidableEq, Repr

/-- Per-symbol market metrics; every observation is nullable. -/
structure SymbolMetrics where
  openInterest : Option ℚ := none
  referencePrice : Option ℚ := none
  openInterestNotional : Option ℚ := none
  marketCap : Option ℚ := none
  volume24h : Option ℚ := none
  hhi : Option ℚ := none
  fetchedAt : Int := 0
deriving DecidableEq, Repr

/-- Validation issue.  The display-only `message` string and the free-form
`details` record are not modelled; `detailSymbol` carries the
`details.symbol` entry the per-position rules attach. -/
structure ValidationIssue where
  rule : RuleKind
  baseAsset : String
  direction : IssueDirection
  severity : Severity
  cooldownMinutes : Int
  notifyOnRecovery : Bool
  value : Option ℚ := none
  threshold : Option ℚ := none
  detailSymbol : Option String := none
deriving DecidableEq, Repr

/-- Resolved per-asset rule (the output of `resolvePositionRule`).  White and
black lists are `none` when unset; `Set.has` becomes list membership. -/
structure PositionRule where
  whitelistLong : Option (List String) := none
  whitelistShort : Option (List String) := none
  blacklistLong : Option (List String) := none
  blacklistShort : Option (List String) := none
  maxLeverage : Option ℚ := none
  maxMarginShare : Option ℚ := none
  fundingThresholdLong : Option ℚ := none
  fundingThresholdShort : Option ℚ := none
  cooldownMinutes : Int := 0
  notifyRecovery : Bool := false
deriving DecidableEq, Repr

/-- Configuration surface the rule engine reads through
`config/positionRules.js` (`getConfiguredAssets`, `resolvePositionRule`,
`getTotalMarginUsageLimit`, `positionRulesConfig.defaults`); the loader
itself is external and is treated as an arbitrary resolved configuration. -/
structure RulesConfig where
  configuredAssets : List String
  ruleFor : String → PositionRule
  totalMarginUsageLimit : Option ℚ
  defaultCooldownMinutes : Int
  defaultNotifyRecovery : Bool

/-! ## Position rule engine (`src/positions/ruleEngine.ts`, the operative
version whose `evaluate` takes the optional symbol-metrics map, as called by
`PositionValidationService.run`) -/

/-- Positions of one asset on one side, in snapshot order
(`groupPositionsByAsset` bucket). -/
def groupSide (snaps : List PositionSnapshot) (asset : String) (d : PosDirection) :
    List PositionSnapshot :=
  snaps.filter (fun s => s.baseAsset = asset ∧ s.direction = d)

/-- Ordered key set of `groupPositionsByAsset`. -/
def assetKeys (snaps : List PositionSnapshot) : List String :=
  setFrom (snaps.map (·.baseAsset))

/-- Positions of one symbol, in snapshot order (`groupPositionsBySymbol`
bucket). -/
def bySymbol (snaps : List PositionSnapshot) (symbol : String) :
    List PositionSnapshot :=
  snaps.filter (fun s => s.symbol = symbol)

/-- Ordered key set of `groupPositionsBySymbol`. -/
def symbolKeys (snaps : List PositionSnapshot) : List String :=
  setFrom (snaps.map (·.symbol))

/-- Sum of absolute initial margins (`aggregateInitialMargin`). -/
def aggregateInitialMargin (positions : List PositionSnapshot) : ℚ :=
  positions.foldl (fun sum p => sum + |p.initialMargin|) 0

/-- Sum of absolute notionals (`aggregateNotional`). -/
def aggregateNotional (positions : List PositionSnapshot) : ℚ :=
  positions.foldl (fun sum p => sum + |p.notional|) 0

/-- Candidate asset set: configured assets united with assets that hold
positions, in `Set` insertion order. -/
def candidateAssets (cfg : RulesConfig) (snaps : List PositionSnapshot) :
    List String :=
  setFrom (cfg.configuredAssets ++ assetKeys snaps)

/-- Issue pushed when a predicted funding rate is missing on a position whose
funding threshold is configured. -/
def fundingMissingIssue (rule : PositionRule) (asset : String)
    (d : PosDirection) (p : PositionSnapshot) : ValidationIssue :=
  { rule := .data_missing
    baseAsset := asset
    direction := d.toIssueDirection
    severity := .warning
    cooldownMinutes := rule.cooldownMinutes
    notifyOnRecovery := rule.notifyRecovery
    detailSymbol := some p.symbol }

/-- Issue pushed when a short position's predicted funding rate is below the
short threshold. -/
def fundingShortIssue (rule : PositionRule) (asset : String)
    (p : PositionSnapshot) (threshold rate : ℚ) : ValidationIssue :=
  { rule := .funding_rate_limit
    baseAsset := asset
    direction := .short
    severity := .warning
    cooldownMinutes := rule.cooldownMinutes
    notifyOnRecovery := rule.notifyRecovery
    value := some rate
    threshold := some threshold
    detailSymbol := some p.symbol }

/-- Issue pushed when a long position's predicted funding rate is above the
long threshold. -/
def fundingLongIssue (rule : PositionRule) (asset : String)
    (p : PositionSnapshot) (threshold rate : ℚ) : ValidationIssue :=
  { rule := .funding_rate_limit
    baseAsset := asset
    direction := .long
    severity := .warning
    cooldownMinutes := rule.cooldownMinutes
    notifyOnRecovery := rule.notifyRecovery
    value := some rate
    threshold := some threshold
    detailSymbol := some p.symbol }

/-- Funding check for one short position: skipped without a configured
threshold; `data_missing` when the rate is nil; `funding_rate_limit` when the
rate is strictly below the threshold. -/
def fundingShortFor (rule : PositionRule) (asset : String)
    (p : PositionSnapshot) : List ValidationIssue :=
  match rule.fundingThresholdShort with
  | none => []
  | some threshold =>
    match p.predictedFundingRate with
    | none => [fundingMissingIssue rule asset .short p]
    | some rate =>
      if rate < threshold then [fundingShortIssue rule asset p threshold rate] else []

/-- Funding check for one long position: skipped without a configured
threshold; `data_missing` when the rate is nil; `funding_rate_limit` when the
rate is strictly above the threshold. -/
def fundingLongFor (rule : PositionRule) (asset : String)
    (p : PositionSnapshot) : List ValidationIssue :=
  match rule.fundingThresholdLong with
  | none => []
  | some threshold =>
    match p.predictedFundingRate with
    | none => [fundingMissingIssue rule asset .long p]
    | some rate =>
      if rate > threshold then [fundingLongIssue rule asset p threshold rate] else []

/-- Conflicting white/black list membership checks (`config_error`). -/
def configErrorIssues (rule : PositionRule) (asset : String) :
    List ValidationIssue :=
  (match rule.whitelistLong, rule.blacklistLong with
   | some wl, some bl =>
     if asset ∈ wl ∧ asset ∈ bl then
       [{ rule := .config_error, baseAsset := asset, direction := .long
          severity := .critical, cooldownMinutes := rule.cooldownMinutes
          notifyOnRecovery := rule.notifyRecovery }]
     else []
   | _, _ => []) ++
  (match rule.whitelistShort, rule.blacklistShort with
   | some wl, some bl =>
     if asset ∈ wl ∧ asset ∈ bl then
       [{ rule := .config_error, baseAsset := asset, direction := .short
          severity := .critical, cooldownMinutes := rule.cooldownMinutes
          notifyOnRecovery := rule.notifyRecovery }]
     else []
   | _, _ => []) ++
  []

/-- Whitelist violations for both directions. -/
def whitelistIssues (rule : PositionRule) (asset : String)
    (longs shorts : List PositionSnapshot) : List ValidationIssue :=
  (match rule.whitelistLong with
   | some wl =>
     if asset ∉ wl ∧ longs ≠ [] then
       [{ rule := .whitelist_violation, baseAsset := asset, direction := .long
          severity := .critical, cooldownMinutes := rule.cooldownMinutes
          notifyOnRecovery := rule.notifyRecovery
          value := some (aggregateNotional longs) }]
     else []
   | none => []) ++
  (match rule.whitelistShort with
   | some wl =>
     if asset ∉ wl ∧ shorts ≠ [] then
       [{ rule := .whitelist_violation, baseAsset := asset, direction := .short
          severity := .critical, cooldownMinutes := rule.cooldownMinutes
          notifyOnRecovery := rule.notifyRecovery
          value := some (aggregateNotional shorts) }]
     else []
   | none => [])

/-- Blacklist violations for both directions. -/
def blacklistIssues (rule : PositionRule) (asset : String)
    (longs shorts : List PositionSnapshot) : List ValidationIssue :=
  (match rule.blacklistLong with
   | some bl =>
     if asset ∈ bl ∧ longs ≠ [] then
       [{ rule := .blacklist_violation, baseAsset := asset, direction := .long
          severity := .critical, cooldownMinutes := rule.cooldownMinutes
          notifyOnRecovery := rule.notifyRecovery
          value := some (aggregateNotional longs) }]
     else []
   | none => []) ++
  (match rule.blacklistShort with
   | some bl =>
     if asset ∈ bl ∧ shorts ≠ [] then
       [{ rule := .blacklist_violation, baseAsset := asset, direction := .short
          severity := .critical, cooldownMinutes := rule.cooldownMinutes
          notifyOnRecovery := rule.notifyRecovery
          value := some (aggregateNotional shorts) }]
     else []
   | none => [])

/-- Per-position leverage check over the concatenated long and short
buckets. -/
def leverageIssues (rule : PositionRule) (asset : String)
    (positions : List PositionSnapshot) : List ValidationIssue :=
  match rule.maxLeverage with
  | none => []
  | some maxLev =>
    positions.flatMap (fun p =>
      if p.leverage > maxLev then
        [{ rule := .leverage_limit, baseAsset := asset
           direction := p.direction.toIssueDirection
           severity := .warning, cooldownMinutes := rule.cooldownMinutes
           notifyOnRecovery := rule.notifyRecovery
           value := some p.leverage, threshold := some maxLev
           detailSymbol := some p.symbol }]
      else [])

/-- Margin-share check per direction, evaluated only with a positive total
margin balance. -/
def marginShareIssues (rule : PositionRule) (asset : String)
    (totalMarginBalance : ℚ) (longs shorts : List PositionSnapshot) :
    List ValidationIssue :=
  match rule.maxMarginShare with
  | none => []
  | some maxShare =>
    if totalMarginBalance > 0 then
      let longShare := aggregateInitialMargin longs / totalMarginBalance
      let shortShare := aggregateInitialMargin shorts / totalMarginBalance
      (if longShare > maxShare then
        [{ rule := .margin_share_limit, baseAsset := asset, direction := .long
           severity := .warning, cooldownMinutes := rule.cooldownMinutes
           notifyOnRecovery := rule.notifyRecovery
           value := some longShare, threshold := some maxShare }]
       else []) ++
      (if shortShare > maxShare then
        [{ rule := .margin_share_limit, baseAsset := asset, direction := .short
           severity := .warning, cooldownMinutes := rule.cooldownMinutes
           notifyOnRecovery := rule.notifyRecovery
           value := some shortShare, threshold := some maxShare }]
       else [])
    else []

/-- Issues contributed by the per-asset loop body for one candidate asset. -/
def assetIssues (cfg : RulesConfig) (ctx : AccountContext) (asset : String) :
    List ValidationIssue :=
  let rule := cfg.ruleFor asset
  let longs := groupSide ctx.snapshots asset .long
  let shorts := groupSide ctx.snapshots asset .short
  configErrorIssues rule asset ++
  whitelistIssues rule asset longs shorts ++
  blacklistIssues rule asset longs shorts ++
  leverageIssues rule asset (longs ++ shorts) ++
  marginShareIssues rule asset ctx.totalMarginBalance longs shorts ++
  shorts.flatMap (fundingShortFor rule asset) ++
  longs.flatMap (fundingLongFor rule asset)

/-- Account-wide checks: the `data_missing` critical for a non-positive total
margin balance, else the `total_margin_usage` check when a limit is
configured. -/
def accountIssues (cfg : RulesConfig) (ctx : AccountContext) :
    List ValidationIssue :=
  if ctx.totalMarginBalance ≤ 0 then
    [{ rule := .data_missing, baseAsset := "__account__", direction := .global
       severity := .critical, cooldownMinutes := cfg.defaultCooldownMinutes
       notifyOnRecovery := cfg.defaultNotifyRecovery }]
  else
    match cfg.totalMarginUsageLimit with
    | none => []
    | some limit =>
      let aggregated := ctx.snapshots.foldl (fun sum s => sum + |s.initialMargin|) 0
      let usage := aggregated / ctx.totalMarginBalance
      if usage > limit then
        [{ rule := .total_margin_usage, baseAsset := "__account__"
           direction := .global, severity := .critical
           cooldownMinutes := cfg.defaultCooldownMinutes
           notifyOnRecovery := cfg.defaultNotifyRecovery
           value := some usage, threshold := some limit }]
      else []

/-- Per-symbol market-metric checks for one symbol
(`evaluateSymbolMetrics` loop body); the fixed thresholds of this release
are inlined at their use sites. -/
def symbolIssuesFor (cfg : RulesConfig) (ctx : AccountContext)
    (metrics : String → Option SymbolMetrics) (symbol : String) :
    List ValidationIssue :=
  let positions := bySymbol ctx.snapshots symbol
  if positions = [] then []
  else
    let baseRule := cfg.ruleFor ((positions.head?.map (·.baseAsset)).getD symbol)
    let cd := baseRule.cooldownMinutes
    let nr := baseRule.notifyRecovery
    let m := metrics symbol
    let referencePrice := (m.bind (·.referencePrice))
    let openInterestNotional := (m.bind (·.openInterestNotional))
    let oiIssues :=
      match openInterestNotional with
      | some oiN =>
        if oiN > 0 then
          let totalNotional := aggregateNotional positions
          let share := totalNotional / oiN
          (if share > 2 / 100 then
            [{ rule := .oi_share_limit, baseAsset := symbol, direction := .global
               severity := .critical, cooldownMinutes := cd, notifyOnRecovery := nr
               value := some share, threshold := some (2 / 100)
               detailSymbol := some symbol }]
           else []) ++
          (if oiN < 2000000 then
            [{ rule := .oi_minimum, baseAsset := symbol, direction := .global
               severity := .warning, cooldownMinutes := cd, notifyOnRecovery := nr
               value := some oiN, threshold := some 2000000
               detailSymbol := some symbol }]
           else [])
        else []
      | none => []
    let oiMissing : List String :=
      match openInterestNotional with
      | some oiN =>
        if oiN > 0 then []
        else "OI" :: (if referencePrice = none then ["价格"] else ["OI名义金额"])
      | none => "OI" :: (if referencePrice = none then ["价格"] else ["OI名义金额"])
    let marketCap := m.bind (·.marketCap)
    let mcIssues :=
      match marketCap with
      | some mc =>
        if mc < 50000000 then
          [{ rule := .market_cap_minimum, baseAsset := symbol, direction := .global
             severity := .warning, cooldownMinutes := cd, notifyOnRecovery := nr
             value := some mc, threshold := some 50000000
             detailSymbol := some symbol }]
        else []
      | none => []
    let mcMissing : List String := if marketCap = none then ["市值"] else []
    let volume24h := m.bind (·.volume24h)
    let volIssues :=
      match volume24h with
      | some v =>
        if v < 1000000 then
          [{ rule := .volume_24h_minimum, baseAsset := symbol, direction := .global
             severity := .warning, cooldownMinutes := cd, notifyOnRecovery := nr
             value := some v, threshold := some 1000000
             detailSymbol := some symbol }]
        else []
      | none => []
    let volMissing : List String := if volume24h = none then ["24小时成交量"] else []
    let hhi := m.bind (·.hhi)
    let hhiIssues :=
      match hhi with
      | some h =>
        if h > 2 / 10 then
          [{ rule := .concentration_hhi_limit, baseAsset := symbol
             direction := .global, severity := .warning, cooldownMinutes := cd
             notifyOnRecovery := nr, value := some h, threshold := some (2 / 10)
             detailSymbol := some symbol }]
        else []
      | none => []
    let hhiMissing : List String := if hhi = none then ["集中度HHI"] else []
    let missingFields := oiMissing ++ mcMissing ++ volMissing ++ hhiMissing
    let missingIssues :=
      if missingFields ≠ [] then
        [{ rule := .data_missing, baseAsset := symbol, direction := .global
           severity := .warning, cooldownMinutes := cd, notifyOnRecovery := nr
           detailSymbol := some symbol }]
      else []
    oiIssues ++ mcIssues ++ volIssues ++ hhiIssues ++ missingIssues

/-- All per-symbol metric issues (`evaluateSymbolMetrics`). -/
def symbolIssues (cfg : RulesConfig) (ctx : AccountContext)
    (metrics : String → Option SymbolMetrics) : List ValidationIssue :=
  (symbolKeys ctx.snapshots).flatMap (symbolIssuesFor cfg ctx metrics)

/-- Translation of `PositionRuleEngine.evaluate`: the per-asset rule battery
over every candidate asset, then the account-wide checks, then the per-symbol
metric checks, in source push order. -/
def PositionRuleEngine.evaluate (cfg : RulesConfig) (ctx : AccountContext)
    (metrics : String → Option SymbolMetrics) : List ValidationIssue :=
  (candidateAssets cfg ctx.snapshots).flatMap (assetIssues cfg ctx) ++
  accountIssues cfg ctx ++
  symbolIssues cfg ctx metrics

/-! ## Alert limiter (`src/positions/alertLimiter.ts`) -/

/-- Dedup key of an issue: `rule:baseAsset:direction` (`defaultIssueKey`). -/
def defaultIssueKey (issue : ValidationIssue) : String :=
  issue.rule.repr ++ ":" ++ issue.baseAsset ++ ":" ++ issue.direction.repr

/-- State kept per issue key. -/
structure AlertState where
  lastIssue : ValidationIssue
  firstDetectedAt : Int
  lastSentAt : Option Int
  notifyOnRecovery : Bool
deriving DecidableEq, Repr

/-- Alert-limiter event kind. -/
inductive AlertEventType
  | alert
  | recovery
deriving DecidableEq, Repr

/-- Event emitted by `AlertLimiter.process`.  The source field `repeat` is a
Lean keyword and is rendered `repeatFlag`. -/
structure AlertEvent where
  type : AlertEventType
  issue : ValidationIssue
  repeatFlag : Bool
  firstDetectedAt : Int
  lastSentAt : Option Int
deriving DecidableEq, Repr

/-- Constructor computation of the cooldown floor:
`Math.max(0, minCooldownMinutes) * 60 * 1000`. -/
def minCooldownMsOf (minCooldownMinutes : Int) : Int :=
  max 0 minCooldownMinutes * 60 * 1000

/-- First pass of `AlertLimiter.process` over the issue list: creates or
updates per-key state and collects alert events, threading the mutated
state map. -/
def AlertLimiter.processIssues (minCooldownMs now : Int) :
    List (String × AlertState) → List ValidationIssue →
    List AlertEvent × List (String × AlertState)
  | st, [] => ([], st)
  | st, issue :: rest =>
    let key := defaultIssueKey issue
    match st.lookup key with
    | none =>
      let st1 := msetA st key
        { lastIssue := issue, firstDetectedAt := now, lastSentAt := some now
          notifyOnRecovery := issue.notifyOnRecovery }
      let (evs, st2) := AlertLimiter.processIssues minCooldownMs now st1 rest
      (⟨.alert, issue, false, now, none⟩ :: evs, st2)
    | some s0 =>
      let s1 := { s0 with lastIssue := issue, notifyOnRecovery := issue.notifyOnRecovery }
      let cooldownMs := max (max 0 issue.cooldownMinutes * 60 * 1000) minCooldownMs
      match s0.lastSentAt with
      | none =>
        let st1 := msetA st key { s1 with lastSentAt := some now }
        let (evs, st2) := AlertLimiter.processIssues minCooldownMs now st1 rest
        (⟨.alert, issue, false, s0.firstDetectedAt, none⟩ :: evs, st2)
      | some sentAt =>
        if now - sentAt ≥ cooldownMs then
          let st1 := msetA st key { s1 with lastSentAt := some now }
          let (evs, st2) := AlertLimiter.processIssues minCooldownMs now st1 rest
          (⟨.alert, issue, true, s0.firstDetectedAt, some sentAt⟩ :: evs, st2)
        else
          let st1 := msetA st key s1
          AlertLimiter.processIssues minCooldownMs now st1 rest

/-- Translation of `AlertLimiter.process`: the alert pass over the issues in
input order, then the recovery sweep over the remaining state entries in map
iteration order, dropping every key not seen in this batch. -/
def AlertLimiter.process (minCooldownMs : Int) (st : List (String × AlertState))
    (issues : List ValidationIssue) (now : Int) :
    List AlertEvent × List (String × AlertState) :=
  let (alerts, st1) := AlertLimiter.processIssues minCooldownMs now st issues
  let seen := issues.map defaultIssueKey
  let recoveries := st1.filterMap (fun p =>
    if p.1 ∈ seen then none
    else if p.2.notifyOnRecovery then
      some ⟨.recovery, p.2.lastIssue, false, p.2.firstDetectedAt, p.2.lastSentAt⟩
    else none)
  (alerts ++ recoveries, st1.filter (fun p => p.1 ∈ seen))

/-! ## Position digest card (`src/notifications/positionCardBuilder.ts`) -/

/-- Digest event handed to the card builder; the display-only `message` and
`extraFields` entries are not modelled. -/
structure PositionAlertDigestEvent where
  title : String
  scopeLabel : String
  statusLabel : String
  severity : Severity
  ruleLabel : String
  valueLabel : Option String := none
  thresholdLabel : Option String := none
  repeatFlag : Bool := false
  firstDetectedAt : Int := 0
  triggeredAt : Int := 0
deriving DecidableEq, Repr

/-- Translation of `resolveDigestTemplate`: green when no event lacks the
`恢复` marker, else red on a critical non-recovery, else orange on a warning
non-recovery, else blue. -/
def resolveDigestTemplate (events : List PositionAlertDigestEvent) : String :=
  if events.length = 0 then "blue"
  else
    let hasAlert := events.any (fun e => !(strIncludes e.statusLabel "恢复"))
    if !hasAlert then "green"
    else if events.any (fun e => e.severity == .critical && !(strIncludes e.statusLabel "恢复")) then
      "red"
    else if events.any (fun e => e.severity == .warning && !(strIncludes e.statusLabel "恢复")) then
      "orange"
    else "blue"

/-- Header projection of the digest card built by
`buildPositionAlertDigestCard`; the element list is rendered display text and
is not modelled. -/
structure DigestCardHeader where
  headerTemplate : String
  headerTitle : String
deriving DecidableEq, Repr

/-- Translation of the header of `buildPositionAlertDigestCard`. -/
def buildPositionAlertDigestCard (triggeredAt : Int)
    (events : List PositionAlertDigestEvent) : DigestCardHeader :=
  { headerTemplate := resolveDigestTemplate events
    headerTitle := "持仓监控 - " ++ Nat.repr events.length ++ " 条提醒" }

/-! ## Account metrics provider (`src/orders/accountMetricsProvider.ts`) -/

/-- Cached summary shared with the aggregator. -/
structure AccountSummary where
  totalFunds : Option ℚ
  fetchedAt : Int
  positions : List (String × PositionSnapshot)
deriving DecidableEq, Repr

/-- Position key `<symbol>:<direction>` (`buildPositionKey`). -/
def buildPositionKey (symbol : String) (d : PosDirection) : String :=
  symbol ++ ":" ++ d.repr

/-- Provider cache entry. -/
structure ProviderCache where
  summary : AccountSummary
  cachedAt : Int
deriving DecidableEq, Repr

/-- Summary constructed from a fetched account context.  `Number.isFinite`
holds for every rational, so `totalFunds` is always populated here. -/
def mkAccountSummary (ctx : AccountContext) : AccountSummary :=
  { totalFunds := some ctx.totalMarginBalance
    fetchedAt := ctx.fetchedAt
    positions := ctx.snapshots.foldl
      (fun m s => msetA m (buildPositionKey s.symbol s.direction) s) [] }

/-- Translation of `BinanceAccountMetricsProvider.refresh` with the REST
fetch outcome made an explicit `Except` parameter: a successful fetch builds
and caches a fresh summary, a failed fetch is caught and falls back to
`this.cache?.summary ?? null`. -/
def BinanceAccountMetricsProvider.refresh (cache : Option ProviderCache)
    (now : Int) (fetchResult : Except String AccountContext) :
    Except String (Option AccountSummary × Option ProviderCache) :=
  match fetchResult with
  | .ok ctx =>
    let summary := mkAccountSummary ctx
    .ok (some summary, some ⟨summary, now⟩)
  | .error _ => .ok (cache.map (·.summary), cache)

/-- Translation of `BinanceAccountMetricsProvider.getSummary` (cache TTL
check, then refresh); the single-flight promise sharing is a concurrency
artefact with no effect on the returned value and is not modelled. -/
def BinanceAccountMetricsProvider.getSummary (cacheTtlMs : Int)
    (cache : Option ProviderCache) (now : Int)
    (fetchResult : Except String AccountContext) :
    Except String (Option AccountSummary × Option ProviderCache) :=
  match cache with
  | some c =>
    if now - c.cachedAt < cacheTtlMs then .ok (some c.summary, cache)
    else BinanceAccountMetricsProvider.refresh cache now fetchResult
  | none => BinanceAccountMetricsProvider.refresh cache now fetchResult

/-! ## Order aggregator (`src/orders/aggregator.ts`,
`src/orders/stateTracker.ts`) -/

/-- Closed set of emission scenarios. -/
inductive ScenarioKey
  | SLTP_NEW
  | SLTP_CANCELED
  | SLTP_FILLED
  | SLTP_PARTIAL_COMPLETED
  | SLTP_PARTIAL_TIMEOUT
  | SLTP_PARTIAL_CANCELED
  | GENERAL_SINGLE
  | GENERAL_AGGREGATED
  | GENERAL_TIMEOUT
  | GENERAL_PARTIAL_CANCELED
deriving DecidableEq, Repr

/-- Aggregation context of one order (`AggregationContext`).  The pending
`NodeJS.Timeout` handle is modelled by its deadline (`timerDeadline`);
`cumulativeQuote` is held as an exact rational where the source serializes
`Big.toFixed(8)` strings. -/
structure AggContext where
  symbol : String
  orderId : Nat
  clientOrderId : String
  orderType : String
  side : String
  source : String
  presentation : OrderPresentation
  originalQuantity : String
  cumulativeQuantity : String
  cumulativeQuote : ℚ
  lastAveragePrice : String
  lastStatus : String
  lastEventTimeMs : Int
  timerDeadline : Option Int := none
  events : List OrderEvent
  scenarioHint : Option ScenarioKey := none
deriving DecidableEq, Repr

/-- Fixed-point rendering of a rational, the fragment of `Big.toFixed`
(ROUND_HALF_UP, away from zero at the midpoint) the tracker uses. -/
def ratToFixed (nd : Nat) (q : ℚ) : String :=
  let scaled : ℚ := |q| * ((10 : ℚ) ^ nd)
  let n : Int := ⌊scaled + 1 / 2⌋
  let sign := if q < 0 then "-" else ""
  let ip := Nat.repr (n / ((10 : Int) ^ nd)).toNat
  let frDigits := Nat.repr (n % ((10 : Int) ^ nd)).toNat
  if nd = 0 then sign ++ ip
  else sign ++ ip ++ "." ++ (⟨List.replicate (nd - frDigits.length) '0'⟩ ++ frDigits)

/-- The tracker's `safeBig`: empty (or falsy) input and parse failures both
collapse to zero. -/
def trackerSafeBig (v : String) : ℚ :=
  if v = "" then 0 else (parseDec v).getD 0

/-- Translation of `OrderStateTracker.update`: upserts the context keyed by
`aggregationKey`, recomputes the cumulative quote with the
average/last/order price fallback chain, backfills the average price when
the exchange reports zero, and appends the event to the history. -/
def OrderStateTracker.update (tracker : String → Option AggContext)
    (e : OrderEvent) (presentation : OrderPresentation) :
    (String → Option AggContext) × AggContext :=
  let key := aggregationKey e
  let baseContext : AggContext :=
    match tracker key with
    | some existing => existing
    | none =>
      { symbol := e.symbol, orderId := e.orderId, clientOrderId := e.clientOrderId
        orderType := e.orderType, side := e.side, source := presentation.source
        presentation := presentation, originalQuantity := e.originalQuantity
        cumulativeQuantity := "0", cumulativeQuote := 0, lastAveragePrice := "0"
        lastStatus := e.status, lastEventTimeMs := e.eventTimeMs, events := [] }
  let cumulativeQty := trackerSafeBig e.cumulativeQuantity
  let averagePrice := trackerSafeBig e.averagePrice
  let lastPrice := trackerSafeBig e.lastPrice
  let orderPrice := trackerSafeBig e.orderPrice
  let cumulativeQuote : ℚ :=
    if cumulativeQty > 0 then
      if averagePrice > 0 then averagePrice * cumulativeQty
      else if lastPrice > 0 then lastPrice * cumulativeQty
      else if orderPrice > 0 then orderPrice * cumulativeQty
      else 0
    else 0
  let resolvedAveragePrice :=
    if (e.averagePrice = "" ∨ e.averagePrice = "0") ∧ cumulativeQty > 0 ∧ cumulativeQuote > 0 then
      ratToFixed 8 (cumulativeQuote / cumulativeQty)
    else e.averagePrice
  let next : AggContext :=
    { baseContext with
        orderType := e.orderType, side := e.side, source := presentation.source
        presentation := presentation, cumulativeQuantity := e.cumulativeQuantity
        cumulativeQuote := cumulativeQuote, lastAveragePrice := resolvedAveragePrice
        lastStatus := e.status, lastEventTimeMs := e.eventTimeMs
        events := baseContext.events ++ [e] }
  (fun k => if k = key then some next else tracker k, next)

/-- Per-scenario emission options. -/
structure EmitOptions where
  stateLabel : String
  includeCumulative : Bool
  priceSource : Option String := none
deriving DecidableEq, Repr

/-- Projection of `OrderNotificationInput` to the fields this development
reasons about (scenario, identity, title, state label, raw history); the
display-price and account-ratio fields of the source payload are rendered
display strings and are not modelled. -/
structure AggPayload where
  scenario : ScenarioKey
  symbol : String
  side : String
  source : String
  title : String
  stateLabel : String
  orderType : String
  status : String
  rawEvents : List OrderEvent
deriving DecidableEq, Repr

/-- Mutable state owned by an `OrderAggregator` instance. -/
structure AggState where
  tracker : String → Option AggContext
  stopPresentationCache : String → Option OrderPresentation
  suppressedStopClientIds : String → Bool
  processedEvents : String → Option Int
  finalizedContexts : String → Option Int

/-- Freshly constructed aggregator state. -/
def initialAggState : AggState :=
  { tracker := fun _ => none
    stopPresentationCache := fun _ => none
    suppressedStopClientIds := fun _ => false
    processedEvents := fun _ => none
    finalizedContexts := fun _ => none }

/-- `PROCESSED_EVENT_TTL_MS`. -/
def PROCESSED_EVENT_TTL_MS : Int := 60000

/-- `FINALIZED_CONTEXT_TTL_MS`. -/
def FINALIZED_CONTEXT_TTL_MS : Int := 60000

/-- Functional-map insertion. -/
def fset {α : Type} (m : String → Option α) (k : String) (v : α) :
    String → Option α :=
  fun k' => if k' = k then some v else m k'

/-- Functional-map deletion. -/
def fdel {α : Type} (m : String → Option α) (k : String) :
    String → Option α :=
  fun k' => if k' = k then none else m k'

/-- Dedup key
`<symbol>|<orderId>|<clientOrderId>|<status>|<execType>|<tradeTime>|<lastQty>|<cumQty>`
(`buildEventKey`; the raw mirror fields equal the event fields by
construction of `toOrderEvent`). -/
def buildEventKey (e : OrderEvent) : String :=
  e.symbol ++ "|" ++ Nat.repr e.orderId ++ "|" ++ e.clientOrderId ++ "|" ++
    e.status ++ "|" ++ e.execType ++ "|" ++ intRepr e.tradeTimeMs ++ "|" ++
    e.lastQuantity ++ "|" ++ e.cumulativeQuantity

/-- Translation of `isFinalStatus`. -/
def isFinalStatus (status : String) : Bool :=
  let normalized := jsUpper status
  normalized = "FILLED" ∨ normalized = "CANCELED" ∨ normalized = "EXPIRED" ∨
    normalized = "REJECTED"

/-- TTL lookup shared by `hasProcessedEvent` and `hasFinalizedContext`:
reports whether a fresh entry exists and deletes the entry when expired. -/
def ttlLookup (now ttl : Int) (m : String → Option Int) (key : String) :
    Bool × (String → Option Int) :=
  match m key with
  | none => (false, m)
  | some ts => if now - ts > ttl then (false, fdel m key) else (true, m)

/-- TTL sweep shared by `pruneProcessedEvents` and `pruneFinalizedContexts`:
drops every entry strictly older than `now - ttl`. -/
def pruneTimestampMap (now ttl : Int) (m : String → Option Int) :
    String → Option Int :=
  fun k =>
    match m k with
    | some ts => if ts < now - ttl then none else some ts
    | none => none

/-- `markEventProcessed`: record the timestamp, then prune. -/
def markEventProcessed (now : Int) (m : String → Option Int) (key : String)
    (timestamp : Int) : String → Option Int :=
  pruneTimestampMap now PROCESSED_EVENT_TTL_MS (fset m key timestamp)

/-- `markContextFinalized`: record the timestamp, then prune. -/
def markContextFinalized (now : Int) (m : String → Option Int) (key : String)
    (timestamp : Int) : String → Option Int :=
  pruneTimestampMap now FINALIZED_CONTEXT_TTL_MS (fset m key timestamp)

/-- Translation of `OrderAggregator.resolvePresentation`: direct
classification wins and is cached; an unclassified child event inherits the
cached presentation of its parent client order id. -/
def OrderAggregator.resolvePresentation (st : AggState) (e : OrderEvent) :
    OrderPresentation × AggState :=
  let direct := resolveOrderPresentation e.clientOrderId
  if direct.source ≠ "其他" then
    (direct,
     { st with stopPresentationCache := fset st.stopPresentationCache e.clientOrderId direct })
  else
    match e.originalClientOrderId with
    | some oc =>
      match st.stopPresentationCache oc with
      | some cached =>
        (cached,
         { st with stopPresentationCache := fset st.stopPresentationCache e.clientOrderId cached })
      | none => (direct, st)
    | none => (direct, st)

/-- Translation of `OrderAggregator.clearContext`: drop the tracker context
(cancelling any pending deadline with it), evict the presentation cache and
suppression entries, and record the finalization timestamp for terminal
statuses. -/
def OrderAggregator.clearContext (now : Int) (st : AggState) (e : OrderEvent) :
    AggState :=
  let key := aggregationKey e
  let cache1 := fdel st.stopPresentationCache e.clientOrderId
  let cache2 :=
    match e.originalClientOrderId with
    | some oc => fdel cache1 oc
    | none => cache1
  let st1 :=
    { st with
        tracker := fdel st.tracker key
        stopPresentationCache := cache2
        suppressedStopClientIds :=
          fun k => if k = e.clientOrderId then false else st.suppressedStopClientIds k }
  if isFinalStatus e.status then
    { st1 with
        finalizedContexts := markContextFinalized now st1.finalizedContexts key e.eventTimeMs }
  else st1

/-- Translation of `OrderAggregator.ensureTimer`: replaces any pending
deadline and stores the armed context (deadline plus scenario hint) back into
the tracker; the timeout callback itself is a separate transition outside the
claims below. -/
def OrderAggregator.ensureTimer (windowMs now : Int) (st : AggState)
    (ctx : AggContext) (scenario : ScenarioKey) : AggState :=
  let key := ctx.symbol ++ ":" ++ Nat.repr ctx.orderId ++ ":" ++ ctx.clientOrderId
  { st with
      tracker := fset st.tracker key
        { ctx with timerDeadline := some (now + windowMs), scenarioHint := some scenario } }

/-- Translation of `OrderAggregator.emitNotification`, restricted to the
modelled payload fields; the source reads the last history entry, which is
always present because `update` has just appended the event. -/
def OrderAggregator.emitNotification (ctx : AggContext) (scenario : ScenarioKey)
    (opts : EmitOptions) : List AggPayload :=
  match ctx.events.getLast? with
  | none => []
  | some latest =>
    [{ scenario := scenario
       symbol := latest.symbol
       side := latest.side
       source := ctx.source
       title := latest.symbol ++ "-" ++ ctx.presentation.titleSuffix
       stateLabel := opts.stateLabel
       orderType := latest.orderType
       status := latest.status
       rawEvents := ctx.events }]

/-- Translation of `OrderAggregator.handleStopLikeOrder`. -/
def OrderAggregator.handleStopLikeOrder (windowMs now : Int) (st : AggState)
    (e : OrderEvent) (ctx : AggContext) : AggState × List AggPayload :=
  let isExecutionOrder : Bool :=
    match e.originalClientOrderId with
    | some oc => oc ≠ "" && oc ≠ e.clientOrderId
    | none => false
  let afterSuppression :=
    if isExecutionOrder then
      match e.originalClientOrderId with
      | some oc =>
        some { st with
                suppressedStopClientIds :=
                  fun k => if k = oc then true else st.suppressedStopClientIds k }
      | none => some st
    else if st.suppressedStopClientIds e.clientOrderId ∧ e.status = "FILLED" then
      none
    else some st
  match afterSuppression with
  | none =>
    let st1 :=
      { st with
          suppressedStopClientIds :=
            fun k => if k = e.clientOrderId then false else st.suppressedStopClientIds k }
    (OrderAggregator.clearContext now st1 e, [])
  | some st1 =>
    if e.status = "NEW" then
      if e.orderType = "MARKET" ∨ e.orderType = "LIMIT" then (st1, [])
      else
        (st1,
         OrderAggregator.emitNotification ctx .SLTP_NEW
           { stateLabel := "创建", includeCumulative := false, priceSource := some "order" })
    else if e.status = "CANCELED" then
      let hadPartialFill := ctx.events.any (fun evt => evt.status = "PARTIALLY_FILLED")
      let scenario := if hadPartialFill then ScenarioKey.SLTP_PARTIAL_CANCELED else ScenarioKey.SLTP_CANCELED
      let payloads :=
        OrderAggregator.emitNotification ctx scenario
          { stateLabel := "取消", includeCumulative := hadPartialFill
            priceSource := some (if hadPartialFill then "average" else "order") }
      (OrderAggregator.clearContext now st1 e, payloads)
    else if e.status = "PARTIALLY_FILLED" then
      (OrderAggregator.ensureTimer windowMs now st1 ctx .SLTP_PARTIAL_TIMEOUT, [])
    else if e.status = "FILLED" then
      let hadPartial := ctx.events.any (fun evt => evt.status = "PARTIALLY_FILLED")
      let scenario := if hadPartial then ScenarioKey.SLTP_PARTIAL_COMPLETED else ScenarioKey.SLTP_FILLED
      let payloads :=
        OrderAggregator.emitNotification ctx scenario
          { stateLabel := "成交", includeCumulative := true, priceSource := some "average" }
      (OrderAggregator.clearContext now st1 e, payloads)
    else (st1, [])

/-- Translation of `OrderAggregator.handleGeneralOrder`. -/
def OrderAggregator.handleGeneralOrder (windowMs now : Int) (st : AggState)
    (e : OrderEvent) (ctx : AggContext) : AggState × List AggPayload :=
  if e.status = "PARTIALLY_FILLED" then
    (OrderAggregator.ensureTimer windowMs now st ctx .GENERAL_TIMEOUT, [])
  else if e.status = "FILLED" then
    let hadPartial := ctx.events.any (fun evt => evt.status = "PARTIALLY_FILLED")
    let scenario := if hadPartial then ScenarioKey.GENERAL_AGGREGATED else ScenarioKey.GENERAL_SINGLE
    let payloads :=
      OrderAggregator.emitNotification ctx scenario
        { stateLabel := "成交", includeCumulative := true, priceSource := some "average" }
    (OrderAggregator.clearContext now st e, payloads)
  else if e.status = "CANCELED" then
    let hadPartial := ctx.events.any (fun evt => evt.status = "PARTIALLY_FILLED")
    if ¬ hadPartial then (OrderAggregator.clearContext now st e, [])
    else
      let payloads :=
        OrderAggregator.emitNotification ctx .GENERAL_PARTIAL_CANCELED
          { stateLabel := "取消", includeCumulative := true, priceSource := some "average" }
      (OrderAggregator.clearContext now st e, payloads)
  else (st, [])

/-- Dispatch stage of `OrderAggregator.handleEvent`: update the tracker
context for the event and route it to the stop-like or the general handler
according to the resolved source. -/
def OrderAggregator.runHandlers (windowMs now : Int) (st2 : AggState)
    (e : OrderEvent) (presentation : OrderPresentation) :
    AggState × List AggPayload :=
  let (tracker1, ctx) := OrderStateTracker.update st2.tracker e presentation
  let st3 := { st2 with tracker := tracker1 }
  if presentation.source = "止盈" ∨ presentation.source = "止损" ∨
      presentation.source = "追踪止损" then
    OrderAggregator.handleStopLikeOrder windowMs now st3 e ctx
  else OrderAggregator.handleGeneralOrder windowMs now st3 e ctx

/-- Body of `OrderAggregator.handleEvent` past the dedup check: ignore
unclassified `NEW` events, drop terminal events whose aggregation context was
finalized within the TTL, otherwise dispatch to the handlers; every exit
records the dedup key (keyed by the event time) before returning. -/
def OrderAggregator.handleFresh (windowMs now : Int) (st1 : AggState)
    (e : OrderEvent) (presentation : OrderPresentation) :
    AggState × List AggPayload :=
  let dedupeKey := buildEventKey e
  if presentation.source = "其他" ∧ e.status = "NEW" then
    ({ st1 with
         processedEvents := markEventProcessed now st1.processedEvents dedupeKey e.eventTimeMs },
     [])
  else
    let contextKey := aggregationKey e
    let (isFin, finalized1) :=
      if isFinalStatus e.status then
        ttlLookup now FINALIZED_CONTEXT_TTL_MS st1.finalizedContexts contextKey
      else (false, st1.finalizedContexts)
    let st2 := { st1 with finalizedContexts := finalized1 }
    if isFin then
      ({ st2 with
           processedEvents := markEventProcessed now st2.processedEvents dedupeKey e.eventTimeMs },
       [])
    else
      let (st4, payloads) := OrderAggregator.runHandlers windowMs now st2 e presentation
      ({ st4 with
           processedEvents := markEventProcessed now st4.processedEvents dedupeKey e.eventTimeMs },
       payloads)

/-- Translation of `OrderAggregator.handleEvent` with `Date.now()` made an
explicit `now` parameter; returns the successor state and the notifications
handed to the registered handler (the handler is assumed not to throw, so
the `catch` that unmarks the dedup key is unreachable). -/
def OrderAggregator.handleEvent (windowMs now : Int) (st : AggState)
    (e : OrderEvent) : AggState × List AggPayload :=
  let dedupeKey := buildEventKey e
  let (isDup, processed1) :=
    ttlLookup now PROCESSED_EVENT_TTL_MS st.processedEvents dedupeKey
  let st0 := { st with processedEvents := processed1 }
  if isDup then (st0, [])
  else
    let (presentation, st1) := OrderAggregator.resolvePresentation st0 e
    OrderAggregator.handleFresh windowMs now st1 e presentation


/-- Serial processing of a timed event trace. -/
def runTrace (windowMs : Int) (st : AggState) (trace : List (Int × OrderEvent)) :
    AggState :=
  trace.foldl (fun s p => (OrderAggregator.handleEvent windowMs p.1 s p.2).1) st

/-! ## Concrete fixtures used by the witnesses and counterexamples -/

/-- Issue with `cooldownMinutes = 0`, exercising the limiter's cooldown
floor. -/
def floorIssue : ValidationIssue :=
  { rule := .margin_share_limit, baseAsset := "ETH", direction := .long
    severity := .warning, cooldownMinutes := 0, notifyOnRecovery := false }

/-- Recovery-tracked issue fixture. -/
def recIssue : ValidationIssue :=
  { rule := .leverage_limit, baseAsset := "BTC", direction := .short
    severity := .warning, cooldownMinutes := 0, notifyOnRecovery := true }

/-- Short position fixture with a predicted funding rate below its
threshold. -/
def shortPosFix : PositionSnapshot :=
  { baseAsset := "ETH", symbol := "ETHUSDT", positionAmt := -1, notional := 100
    leverage := 2, initialMargin := 10, direction := .short
    predictedFundingRate := some (-3) }

/-- Long position fixture with a predicted funding rate above its
threshold. -/
def longPosFix : PositionSnapshot :=
  { baseAsset := "ETH", symbol := "ETHUSDT", positionAmt := 1, notional := 100
    leverage := 2, initialMargin := 10, direction := .long
    predictedFundingRate := some 3 }

/-- Rule configuration fixture: only funding thresholds are configured for
`ETH`. -/
def cfgFunding : RulesConfig :=
  { configuredAssets := []
    ruleFor := fun a =>
      if a = "ETH" then
        { fundingThresholdShort := some (-2), fundingThresholdLong := some 2
          cooldownMinutes := 60, notifyRecovery := false }
      else {}
    totalMarginUsageLimit := none
    defaultCooldownMinutes := 60
    defaultNotifyRecovery := false }

/-- Account context fixture holding the two funding fixtures. -/
def ctxFunding : AccountContext :=
  { totalInitialMargin := 0, totalMarginBalance := 100, availableBalance := 100
    snapshots := [shortPosFix, longPosFix], fetchedAt := 0 }

/-- Account context fixture with a zero total margin balance. -/
def ctxZeroMargin : AccountContext :=
  { totalInitialMargin := 0, totalMarginBalance := 0, availableBalance := 0
    snapshots := [], fetchedAt := 0 }

/-- Stop-loss order cancellation fixture (terminal, no fills). -/
def evSlCanceled : OrderEvent :=
  { symbol := "BTCUSDT", orderId := 1, clientOrderId := "SL9", side := "SELL"
    orderType := "STOP_MARKET", status := "CANCELED", eventTimeMs := 1000
    tradeTimeMs := 1000, originalQuantity := "1", cumulativeQuantity := "0"
    lastQuantity := "0", averagePrice := "0", lastPrice := "0", orderPrice := "0"
    stopPrice := some "43000", execType := "CANCELED" }

/-- Same stop order re-announced as `NEW` after its cancellation. -/
def evSlNew : OrderEvent :=
  { evSlCanceled with status := "NEW", execType := "NEW", eventTimeMs := 2000
                      tradeTimeMs := 2000 }

/-- Same stop order reported `FILLED` after its cancellation. -/
def evSlFilled : OrderEvent :=
  { evSlCanceled with status := "FILLED", execType := "TRADE", eventTimeMs := 2000
                      tradeTimeMs := 2000 }

/-- Stop-loss cancellation fixture with event time zero, for the replay
counterexample. -/
def evSlStale : OrderEvent :=
  { evSlCanceled with eventTimeMs := 0, tradeTimeMs := 0 }

/-- Filled `TP1` ladder order fixture. -/
def evTp1Filled : OrderEvent :=
  { symbol := "BTCUSDT", orderId := 2, clientOrderId := "TP1-001", side := "SELL"
    orderType := "STOP_MARKET", status := "FILLED", eventTimeMs := 0
    tradeTimeMs := 0, originalQuantity := "1", cumulativeQuantity := "0"
    lastQuantity := "0", averagePrice := "0", lastPrice := "0", orderPrice := "0"
    execType := "TRADE" }

/-- Partially-filled order fixture (a status the dispatcher ignores). -/
def evPartialFill : OrderEvent :=
  { symbol := "BTCUSDT", orderId := 3, clientOrderId := "ORD-1", side := "BUY"
    orderType := "LIMIT", status := "PARTIALLY_FILLED", eventTimeMs := 0
    tradeTimeMs := 0, originalQuantity := "1", cumulativeQuantity := "0.5"
    lastQuantity := "0.5", averagePrice := "45000", lastPrice := "45000"
    orderPrice := "45000", execType := "TRADE" }

/-- Digest alert event fixture (critical, non-recovery). -/
def dgAlertEvent : PositionAlertDigestEvent :=
  { title := "杠杆限制 - BTC 空头", scopeLabel := "BTC 空头", statusLabel := "告警"
    severity := .critical, ruleLabel := "杠杆限制" }

/-- Digest recovery event fixture. -/
def dgRecoveryEvent : PositionAlertDigestEvent :=
  { title := "杠杆限制 - BTC 空头", scopeLabel := "BTC 空头", statusLabel := "恢复"
    severity := .warning, ruleLabel := "杠杆限制" }

/-! ## Theorems -/

theorem strAppend_assoc (a b c : String) : (a ++ b) ++ c = a ++ (b ++ c) := by
  apply String.ext
  simp [String.data_append, List.append_assoc]

/-- C5: for every non-empty event list, the digest card header template is
green iff every event is a recovery; otherwise red if some non-recovery event
is critical; otherwise orange if some non-recovery event is a warning;
otherwise blue. -/
theorem digestCard_header_template_colors (t : Int)
    (events : List PositionAlertDigestEvent) (h : events ≠ []) :
    (buildPositionAlertDigestCard t events).headerTemplate =
      if ∀ e ∈ events, strIncludes e.statusLabel "恢复" = true then "green"
      else if ∃ e ∈ events, e.severity = .critical ∧ strIncludes e.statusLabel "恢复" = false then "red"
      else if ∃ e ∈ events, e.severity = .warning ∧ strIncludes e.statusLabel "恢复" = false then "orange"
      else "blue" := by
  have hne : ¬ events.length = 0 := by
    simpa [List.length_eq_zero] using h
  have lhs : (buildPositionAlertDigestCard t events).headerTemplate =
      resolveDigestTemplate events := rfl
  rw [lhs]
  by_cases hgreen : ∀ e ∈ events, strIncludes e.statusLabel "恢复" = true
  · have hb : events.any (fun e => !(strIncludes e.statusLabel "恢复")) = false := by
      rw [List.any_eq_false]
      intro e he
      simp [hgreen e he]
    rw [if_pos hgreen]
    unfold resolveDigestTemplate
    rw [if_neg hne]
    simp [hb]
  · have hwit : ∃ e ∈ events, strIncludes e.statusLabel "恢复" = false := by
      push_neg at hgreen
      rcases hgreen with ⟨e, he, hf⟩
      exact ⟨e, he, by simpa using hf⟩
    have hb : events.any (fun e => !(strIncludes e.statusLabel "恢复")) = true := by
      rcases hwit with ⟨e, he, hf⟩
      exact List.any_eq_true.mpr ⟨e, he, by simp [hf]⟩
    rw [if_neg hgreen]
    unfold resolveDigestTemplate
    rw [if_neg hne]
    simp only [hb, Bool.not_true, Bool.false_eq_true, if_false]
    by_cases hred : ∃ e ∈ events, e.severity = .critical ∧ strIncludes e.statusLabel "恢复" = false
    · have hc : events.any (fun e => e.severity == .critical && !(strIncludes e.statusLabel "恢复")) = true := by
        rcases hred with ⟨e, he, hs, hf⟩
        exact List.any_eq_true.mpr ⟨e, he, by simp [hs, hf]⟩
      rw [if_pos hred]
      simp [hc]
    · have hc : events.any (fun e => e.severity == .critical && !(strIncludes e.statusLabel "恢复")) = false := by
        rw [List.any_eq_false]
        intro e he hcontra
        apply hred
        simp only [Bool.and_eq_true, beq_iff_eq, Bool.not_eq_true',
          Bool.not_eq_true] at hcontra
        exact ⟨e, he, hcontra.1, hcontra.2⟩
      rw [if_neg hred]
      by_cases hwarn : ∃ e ∈ events, e.severity = .warning ∧ strIncludes e.statusLabel "恢复" = false
      · have hw : events.any (fun e => e.severity == .warning && !(strIncludes e.statusLabel "恢复")) = true := by
          rcases hwarn with ⟨e, he, hs, hf⟩
          exact List.any_eq_true.mpr ⟨e, he, by simp [hs, hf]⟩
        rw [if_pos hwarn]
        simp [hc, hw]
      · exfalso
        rcases hwit with ⟨e0, he0, hf0⟩
        cases hsev : e0.severity with
        | critical => exact hred ⟨e0, he0, hsev, hf0⟩
        | warning => exact hwarn ⟨e0, he0, hsev, hf0⟩

theorem digestCard_header_template_colors_witness :
    [dgRecoveryEvent, dgAlertEvent] ≠ ([] : List PositionAlertDigestEvent) ∧
    (buildPositionAlertDigestCard 0 [dgRecoveryEvent, dgAlertEvent]).headerTemplate = "red" := by
  refine ⟨by simp, ?_⟩
  rw [digestCard_header_template_colors 0 [dgRecoveryEvent, dgAlertEvent] (by simp)]
  decide

/-- C6 (amended): for every client order id classified as a `TP` ladder order
with level `N ≥ 1`, the lifecycle card title is
`<symbol>-移动止损第N档`; the aggregator's own notifications instead use the
`resolveOrderPresentation` suffixes (see the counterexample). -/
theorem resolveLifecycleTitle_tp_ladder (symbol clientOrderId : String) (n : Nat)
    (hk : (classifyOrder clientOrderId).kind = .tp)
    (hl : (classifyOrder clientOrderId).level = some n)
    (hn : 1 ≤ n) :
    resolveLifecycleTitle symbol (classifyOrder clientOrderId) =
      symbol ++ "-移动止损第" ++ Nat.repr n ++ "档" := by
  unfold resolveLifecycleTitle resolveMovingStopLabel
  rw [hk, hl]
  have hn0 : n ≠ 0 := by omega
  simp only [hn0, if_true, ite_true, ne_eq, not_false_eq_true]
  apply String.ext
  simp [String.data_append, List.append_assoc]

theorem resolveLifecycleTitle_tp_ladder_witness :
    (classifyOrder "TP1-001").kind = .tp ∧
    (classifyOrder "TP1-001").level = some 1 ∧
    resolveLifecycleTitle "BTCUSDT" (classifyOrder "TP1-001") = "BTCUSDT-移动止损第1档" := by
  refine ⟨by decide, by decide, ?_⟩
  have := resolveLifecycleTitle_tp_ladder "BTCUSDT" "TP1-001" 1 (by decide) (by decide) (by decide)
  rw [this]
  decide

/-- C6 counterexample: the aggregator's notification for a filled `TP1`
order carries the `resolveOrderPresentation` title suffix `反弹1/4减仓30%`,
not the `移动止损第1档` ladder title the claim asserts for every
notification. -/
theorem orderAggregator_tp1_title_differs :
    ((OrderAggregator.handleEvent 10000 0 initialAggState evTp1Filled).2.map
        (fun p => p.title)) = ["BTCUSDT-反弹1/4减仓30%"] ∧
    ("BTCUSDT-反弹1/4减仓30%" : String) ≠ "BTCUSDT-移动止损第1档" := by
  exact ⟨by decide, by decide⟩

/-- C8: `getSummary` resolves without throwing for every fetch outcome, and
a failed underlying fetch yields the most recently cached summary when one
exists and `null` otherwise. -/
theorem accountMetricsProvider_getSummary_failure_fallback (cacheTtlMs : Int)
    (cache : Option ProviderCache) (now : Int) :
    (∀ fetchResult, ∃ r,
      BinanceAccountMetricsProvider.getSummary cacheTtlMs cache now fetchResult = .ok r) ∧
    (∀ msg, BinanceAccountMetricsProvider.getSummary cacheTtlMs cache now (.error msg) =
      .ok (cache.map (fun c => c.summary), cache)) := by
  constructor
  · intro fetchResult
    cases cache with
    | none =>
      cases fetchResult with
      | ok ctx => exact ⟨_, rfl⟩
      | error msg => exact ⟨_, rfl⟩
    | some c =>
      by_cases hf : now - c.cachedAt < cacheTtlMs
      · refine ⟨(some c.summary, some c), ?_⟩
        simp [BinanceAccountMetricsProvider.getSummary, hf]
      · cases fetchResult with
        | ok ctx =>
          refine ⟨(some (mkAccountSummary ctx), some ⟨mkAccountSummary ctx, now⟩), ?_⟩
          simp [BinanceAccountMetricsProvider.getSummary,
            BinanceAccountMetricsProvider.refresh, hf]
        | error msg =>
          refine ⟨(some c.summary, some c), ?_⟩
          simp [BinanceAccountMetricsProvider.getSummary,
            BinanceAccountMetricsProvider.refresh, hf]
  · intro msg
    cases cache with
    | none => rfl
    | some c =>
      by_cases hf : now - c.cachedAt < cacheTtlMs
      · simp [BinanceAccountMetricsProvider.getSummary, hf]
      · simp [BinanceAccountMetricsProvider.getSummary,
          BinanceAccountMetricsProvider.refresh, hf]

/-- C10: an order event whose uppercased status is none of `NEW`,
`CANCELED`, `FILLED`, `EXPIRED` or `EXPIRED_IN_MATCH` is dropped by
`OrderNotificationService.handle` without a card being sent to either
sink. -/
theorem orderNotificationService_unsupported_status_no_send (now : Int)
    (cache : List (String × Int)) (e : OrderEvent)
    (h1 : jsUpper e.status ≠ "NEW") (h2 : jsUpper e.status ≠ "CANCELED")
    (h3 : jsUpper e.status ≠ "FILLED") (h4 : jsUpper e.status ≠ "EXPIRED")
    (h5 : jsUpper e.status ≠ "EXPIRED_IN_MATCH") :
    (OrderNotificationService.handle now cache e).2 = none := by
  have hns : normalizeStatus e.status = none := by
    unfold normalizeStatus
    rw [if_neg, if_neg]
    · rintro (ha | hb) <;> [exact h4 ha; exact h5 hb]
    · rintro (ha | hb | hc) <;> [exact h1 ha; exact h2 hb; exact h3 hc]
  simp only [OrderNotificationService.handle, hns]
  split <;> rfl

theorem orderNotificationService_unsupported_status_no_send_witness :
    (OrderNotificationService.handle 0 [] evPartialFill).2 = none :=
  orderNotificationService_unsupported_status_no_send 0 [] evPartialFill
    (by decide) (by decide) (by decide) (by decide) (by decide)

theorem lookup_msetA_self {α : Type} (l : List (String × α)) (k : String) (v : α) :
    (msetA l k v).lookup k = some v := by
  induction l with
  | nil => simp [msetA, List.lookup_cons]
  | cons p t ih =>
    rcases p with ⟨k0, v0⟩
    by_cases hp : k0 = k
    · subst hp
      simp [msetA, List.lookup_cons]
    · have hb : (k == k0) = false := by simp [Ne.symm hp]
      simp [msetA, hp, List.lookup_cons, hb, ih]

theorem lookup_msetA_ne {α : Type} (l : List (String × α)) (k : String) (v : α)
    (k' : String) (h : k' ≠ k) : (msetA l k v).lookup k' = l.lookup k' := by
  induction l with
  | nil =>
    have hb : (k' == k) = false := by simp [h]
    simp [msetA, List.lookup_cons, hb]
  | cons p t ih =>
    rcases p with ⟨k0, v0⟩
    by_cases hp : k0 = k
    · subst hp
      have hb : (k' == k0) = false := by simp [h]
      simp [msetA, List.lookup_cons, hb]
    · by_cases hk : k' = k0
      · subst hk
        simp [msetA, hp, List.lookup_cons]
      · have hb : (k' == k0) = false := by simp [hk]
        simp [msetA, hp, List.lookup_cons, hb, ih]

theorem mem_keys_msetA {α : Type} (l : List (String × α)) (k : String) (v : α)
    (x : String) (h : x ∈ (msetA l k v).map Prod.fst) :
    x = k ∨ x ∈ l.map Prod.fst := by
  induction l with
  | nil =>
    simp [msetA] at h
    exact Or.inl h
  | cons p t ih =>
    rcases p with ⟨k0, v0⟩
    by_cases hp : k0 = k
    · subst hp
      simp only [msetA, if_pos rfl, if_true, eq_self_iff_true, List.map_cons,
        List.mem_cons] at h
      rcases h with rfl | h2
      · exact Or.inl rfl
      · exact Or.inr (List.mem_cons_of_mem _ h2)
    · simp only [msetA, hp, if_false, List.map_cons, List.mem_cons] at h
      rcases h with rfl | h2
      · exact Or.inr (by simp)
      · rcases ih h2 with h3 | h4
        · exact Or.inl h3
        · exact Or.inr (List.mem_cons_of_mem _ h4)

theorem nodup_keys_msetA {α : Type} (l : List (String × α)) (k : String) (v : α)
    (h : (l.map Prod.fst).Nodup) : ((msetA l k v).map Prod.fst).Nodup := by
  induction l with
  | nil => simp [msetA]
  | cons p t ih =>
    rcases p with ⟨k0, v0⟩
    by_cases hp : k0 = k
    · subst hp
      simpa [msetA] using h
    · simp only [List.map_cons, List.nodup_cons] at h
      simp only [msetA, hp, if_false, List.map_cons, List.nodup_cons]
      refine ⟨?_, ih h.2⟩
      intro hmem
      rcases mem_keys_msetA t k v k0 hmem with h1 | h2
      · exact hp h1
      · exact h.1 h2

theorem lookup_mem {α : Type} (l : List (String × α)) (k : String) (v : α)
    (h : l.lookup k = some v) : (k, v) ∈ l := by
  induction l with
  | nil => simp [List.lookup] at h
  | cons p t ih =>
    rcases p with ⟨k0, v0⟩
    rw [List.lookup_cons] at h
    by_cases hk : k = k0
    · subst hk
      simp at h
      subst h
      exact List.mem_cons_self _ _
    · have hb : (k == k0) = false := by simp [hk]
      rw [hb] at h
      exact List.mem_cons_of_mem _ (ih h)

theorem mem_lookup_of_nodup {α : Type} (l : List (String × α)) (k : String) (v : α)
    (hnd : (l.map Prod.fst).Nodup) (hm : (k, v) ∈ l) : l.lookup k = some v := by
  induction l with
  | nil => simp at hm
  | cons p t ih =>
    rcases p with ⟨k0, v0⟩
    simp only [List.map_cons, List.nodup_cons] at hnd
    rcases List.mem_cons.mp hm with h1 | h2
    · rw [Prod.mk.injEq] at h1
      rw [List.lookup_cons]
      simp [h1.1, h1.2]
    · rw [List.lookup_cons]
      have hk : k ≠ k0 := by
        rintro rfl
        exact hnd.1 (by simpa using List.mem_map_of_mem Prod.fst h2)
      have hb : (k == k0) = false := by simp [hk]
      rw [hb]
      exact ih hnd.2 h2

theorem lookup_filter_keyset {α : Type} (l : List (String × α)) (seen : List String)
    (k : String) :
    (l.filter (fun p => p.1 ∈ seen)).lookup k =
      if k ∈ seen then l.lookup k else none := by
  induction l with
  | nil => simp
  | cons p t ih =>
    rcases p with ⟨k0, v0⟩
    by_cases hs : k0 ∈ seen
    · rw [List.filter_cons_of_pos (by simpa using hs)]
      by_cases hk : k = k0
      · subst hk
        simp [List.lookup_cons, hs]
      · have hb : (k == k0) = false := by simp [hk]
        simp only [List.lookup_cons, hb, ih]
    · rw [List.filter_cons_of_neg (by simpa using hs)]
      rw [ih]
      by_cases hks : k ∈ seen
      · have hk : k ≠ k0 := by
          rintro rfl
          exact hs hks
        have hb : (k == k0) = false := by simp [hk]
        simp [List.lookup_cons, hks, hb]
      · simp [hks]

theorem processIssues_cons_new (mc now : Int) (st : List (String × AlertState))
    (issue : ValidationIssue) (rest : List ValidationIssue)
    (h : st.lookup (defaultIssueKey issue) = none) :
    AlertLimiter.processIssues mc now st (issue :: rest) =
      ((⟨.alert, issue, false, now, none⟩ : AlertEvent) ::
          (AlertLimiter.processIssues mc now
            (msetA st (defaultIssueKey issue)
              ⟨issue, now, some now, issue.notifyOnRecovery⟩) rest).1,
        (AlertLimiter.processIssues mc now
          (msetA st (defaultIssueKey issue)
            ⟨issue, now, some now, issue.notifyOnRecovery⟩) rest).2) := by
  simp [AlertLimiter.processIssues, h]

theorem processIssues_cons_first_send (mc now : Int) (st : List (String × AlertState))
    (issue : ValidationIssue) (rest : List ValidationIssue) (s0 : AlertState)
    (h : st.lookup (defaultIssueKey issue) = some s0) (hs : s0.lastSentAt = none) :
    AlertLimiter.processIssues mc now st (issue :: rest) =
      ((⟨.alert, issue, false, s0.firstDetectedAt, none⟩ : AlertEvent) ::
          (AlertLimiter.processIssues mc now
            (msetA st (defaultIssueKey issue)
              ⟨issue, s0.firstDetectedAt, some now, issue.notifyOnRecovery⟩) rest).1,
        (AlertLimiter.processIssues mc now
          (msetA st (defaultIssueKey issue)
            ⟨issue, s0.firstDetectedAt, some now, issue.notifyOnRecovery⟩) rest).2) := by
  simp [AlertLimiter.processIssues, h, hs]

theorem processIssues_cons_repeat_send (mc now : Int)
    (st : List (String × AlertState)) (issue : ValidationIssue)
    (rest : List ValidationIssue) (s0 : AlertState) (sentAt : Int)
    (h : st.lookup (defaultIssueKey issue) = some s0)
    (hs : s0.lastSentAt = some sentAt)
    (hcd : now - sentAt ≥ max (max 0 issue.cooldownMinutes * 60 * 1000) mc) :
    AlertLimiter.processIssues mc now st (issue :: rest) =
      ((⟨.alert, issue, true, s0.firstDetectedAt, some sentAt⟩ : AlertEvent) ::
          (AlertLimiter.processIssues mc now
            (msetA st (defaultIssueKey issue)
              ⟨issue, s0.firstDetectedAt, some now, issue.notifyOnRecovery⟩) rest).1,
        (AlertLimiter.processIssues mc now
          (msetA st (defaultIssueKey issue)
            ⟨issue, s0.firstDetectedAt, some now, issue.notifyOnRecovery⟩) rest).2) := by
  simp [AlertLimiter.processIssues, h, hs, hcd]

theorem processIssues_cons_suppress (mc now : Int)
    (st : List (String × AlertState)) (issue : ValidationIssue)
    (rest : List ValidationIssue) (s0 : AlertState) (sentAt : Int)
    (h : st.lookup (defaultIssueKey issue) = some s0)
    (hs : s0.lastSentAt = some sentAt)
    (hcd : ¬ now - sentAt ≥ max (max 0 issue.cooldownMinutes * 60 * 1000) mc) :
    AlertLimiter.processIssues mc now st (issue :: rest) =
      AlertLimiter.processIssues mc now
        (msetA st (defaultIssueKey issue)
          ⟨issue, s0.firstDetectedAt, some sentAt, issue.notifyOnRecovery⟩) rest := by
  simp [AlertLimiter.processIssues, h, hs, hcd]

theorem processIssues_alert_types (mc now : Int) :
    ∀ (issues : List ValidationIssue) (st : List (String × AlertState)),
      ∀ ev ∈ (AlertLimiter.processIssues mc now st issues).1,
        ev.type = AlertEventType.alert := by
  intro issues
  induction issues with
  | nil =>
    intro st ev hev
    simp [AlertLimiter.processIssues] at hev
  | cons issue rest ih =>
    intro st ev hev
    rcases hlk : st.lookup (defaultIssueKey issue) with _ | s0
    · rw [processIssues_cons_new mc now st issue rest hlk] at hev
      rcases List.mem_cons.mp hev with rfl | h2
      · rfl
      · exact ih _ ev h2
    · rcases hs : s0.lastSentAt with _ | sentAt
      · rw [processIssues_cons_first_send mc now st issue rest s0 hlk hs] at hev
        rcases List.mem_cons.mp hev with rfl | h2
        · rfl
        · exact ih _ ev h2
      · by_cases hcd : now - sentAt ≥ max (max 0 issue.cooldownMinutes * 60 * 1000) mc
        · rw [processIssues_cons_repeat_send mc now st issue rest s0 sentAt hlk hs hcd] at hev
          rcases List.mem_cons.mp hev with rfl | h2
          · rfl
          · exact ih _ ev h2
        · rw [processIssues_cons_suppress mc now st issue rest s0 sentAt hlk hs hcd] at hev
          exact ih _ ev hev

theorem processIssues_lookup_not_mem (mc now : Int) :
    ∀ (issues : List ValidationIssue) (st : List (String × AlertState)) (k : String),
      k ∉ issues.map defaultIssueKey →
      ((AlertLimiter.processIssues mc now st issues).2).lookup k = st.lookup k := by
  intro issues
  induction issues with
  | nil =>
    intro st k _
    simp [AlertLimiter.processIssues]
  | cons issue rest ih =>
    intro st k hk
    simp only [List.map_cons, List.mem_cons, not_or] at hk
    obtain ⟨hk1, hk2⟩ := hk
    have hne : k ≠ defaultIssueKey issue := hk1
    rcases hlk : st.lookup (defaultIssueKey issue) with _ | s0
    · rw [processIssues_cons_new mc now st issue rest hlk]
      rw [ih _ k hk2, lookup_msetA_ne _ _ _ _ hne]
    · rcases hs : s0.lastSentAt with _ | sentAt
      · rw [processIssues_cons_first_send mc now st issue rest s0 hlk hs]
        rw [ih _ k hk2, lookup_msetA_ne _ _ _ _ hne]
      · by_cases hcd : now - sentAt ≥ max (max 0 issue.cooldownMinutes * 60 * 1000) mc
        · rw [processIssues_cons_repeat_send mc now st issue rest s0 sentAt hlk hs hcd]
          rw [ih _ k hk2, lookup_msetA_ne _ _ _ _ hne]
        · rw [processIssues_cons_suppress mc now st issue rest s0 sentAt hlk hs hcd]
          rw [ih _ k hk2, lookup_msetA_ne _ _ _ _ hne]

theorem processIssues_nodup_keys (mc now : Int) :
    ∀ (issues : List ValidationIssue) (st : List (String × AlertState)),
      (st.map Prod.fst).Nodup →
      (((AlertLimiter.processIssues mc now st issues).2).map Prod.fst).Nodup := by
  intro issues
  induction issues with
  | nil =>
    intro st h
    simpa [AlertLimiter.processIssues] using h
  | cons issue rest ih =>
    intro st h
    rcases hlk : st.lookup (defaultIssueKey issue) with _ | s0
    · rw [processIssues_cons_new mc now st issue rest hlk]
      exact ih _ (nodup_keys_msetA _ _ _ h)
    · rcases hs : s0.lastSentAt with _ | sentAt
      · rw [processIssues_cons_first_send mc now st issue rest s0 hlk hs]
        exact ih _ (nodup_keys_msetA _ _ _ h)
      · by_cases hcd : now - sentAt ≥ max (max 0 issue.cooldownMinutes * 60 * 1000) mc
        · rw [processIssues_cons_repeat_send mc now st issue rest s0 sentAt hlk hs hcd]
          exact ih _ (nodup_keys_msetA _ _ _ h)
        · rw [processIssues_cons_suppress mc now st issue rest s0 sentAt hlk hs hcd]
          exact ih _ (nodup_keys_msetA _ _ _ h)

theorem getLast?_cons_of_ne_nil {α : Type} (a : α) (l : List α) (h : l ≠ []) :
    (a :: l).getLast? = l.getLast? := by
  rcases l with _ | ⟨b, t⟩
  · exact absurd rfl h
  · exact List.getLast?_cons_cons

theorem processIssues_lookup_mem (mc now : Int) :
    ∀ (issues : List ValidationIssue) (st : List (String × AlertState)) (k : String),
      k ∈ issues.map defaultIssueKey →
      ∃ s1, ((AlertLimiter.processIssues mc now st issues).2).lookup k = some s1 ∧
        (issues.filter (fun i => defaultIssueKey i = k)).getLast? = some s1.lastIssue ∧
        s1.notifyOnRecovery = s1.lastIssue.notifyOnRecovery := by
  intro issues
  induction issues with
  | nil =>
    intro st k h
    simp at h
  | cons issue rest ih =>
    intro st k hk
    by_cases hmem : k ∈ rest.map defaultIssueKey
    · have hfr : rest.filter (fun i => defaultIssueKey i = k) ≠ [] := by
        rcases List.mem_map.mp hmem with ⟨j, hj, hjk⟩
        intro hnil
        have hjf : j ∈ rest.filter (fun i => defaultIssueKey i = k) :=
          List.mem_filter.mpr ⟨hj, by simp [hjk]⟩
        rw [hnil] at hjf
        simp at hjf
      have hfilter : ((issue :: rest).filter (fun i => defaultIssueKey i = k)).getLast? =
          (rest.filter (fun i => defaultIssueKey i = k)).getLast? := by
        by_cases hik : defaultIssueKey issue = k
        · rw [List.filter_cons_of_pos (by simp [hik])]
          exact getLast?_cons_of_ne_nil _ _ hfr
        · rw [List.filter_cons_of_neg (by simp [hik])]
      rw [hfilter]
      rcases hlk : st.lookup (defaultIssueKey issue) with _ | s0
      · rw [processIssues_cons_new mc now st issue rest hlk]
        exact ih _ k hmem
      · rcases hs : s0.lastSentAt with _ | sentAt
        · rw [processIssues_cons_first_send mc now st issue rest s0 hlk hs]
          exact ih _ k hmem
        · by_cases hcd : now - sentAt ≥ max (max 0 issue.cooldownMinutes * 60 * 1000) mc
          · rw [processIssues_cons_repeat_send mc now st issue rest s0 sentAt hlk hs hcd]
            exact ih _ k hmem
          · rw [processIssues_cons_suppress mc now st issue rest s0 sentAt hlk hs hcd]
            exact ih _ k hmem
    · have hik : k = defaultIssueKey issue := by
        rcases (by simpa using hk : k = defaultIssueKey issue ∨
            ∃ a ∈ rest, defaultIssueKey a = k) with h1 | h2
        · exact h1
        · rcases h2 with ⟨a, ha, hak⟩
          exact absurd (List.mem_map.mpr ⟨a, ha, hak⟩) hmem
      have hfr : rest.filter (fun i => defaultIssueKey i = k) = [] := by
        rw [List.filter_eq_nil_iff]
        intro j hj
        simp only [decide_eq_true_eq]
        intro hjk
        exact hmem (List.mem_map.mpr ⟨j, hj, hjk⟩)
      have hfilter : ((issue :: rest).filter (fun i => defaultIssueKey i = k)).getLast? =
          some issue := by
        rw [List.filter_cons_of_pos (by simp [hik]), hfr]
        rfl
      rw [hfilter]
      have hrest : ∀ st' : List (String × AlertState),
          ((AlertLimiter.processIssues mc now st' rest).2).lookup k = st'.lookup k :=
        fun st' => processIssues_lookup_not_mem mc now rest st' k hmem
      subst hik
      rcases hlk : st.lookup (defaultIssueKey issue) with _ | s0
      · rw [processIssues_cons_new mc now st issue rest hlk]
        refine ⟨⟨issue, now, some now, issue.notifyOnRecovery⟩, ?_, rfl, rfl⟩
        rw [hrest, lookup_msetA_self]
      · rcases hs : s0.lastSentAt with _ | sentAt
        · rw [processIssues_cons_first_send mc now st issue rest s0 hlk hs]
          refine ⟨⟨issue, s0.firstDetectedAt, some now, issue.notifyOnRecovery⟩, ?_, rfl, rfl⟩
          rw [hrest, lookup_msetA_self]
        · by_cases hcd : now - sentAt ≥ max (max 0 issue.cooldownMinutes * 60 * 1000) mc
          · rw [processIssues_cons_repeat_send mc now st issue rest s0 sentAt hlk hs hcd]
            refine ⟨⟨issue, s0.firstDetectedAt, some now, issue.notifyOnRecovery⟩, ?_, rfl, rfl⟩
            rw [hrest, lookup_msetA_self]
          · rw [processIssues_cons_suppress mc now st issue rest s0 sentAt hlk hs hcd]
            refine ⟨⟨issue, s0.firstDetectedAt, some sentAt, issue.notifyOnRecovery⟩, ?_, rfl, rfl⟩
            rw [hrest, lookup_msetA_self]

theorem filterMap_recovery_types (st1 : List (String × AlertState))
    (seen : List String) :
    ∀ ev ∈ st1.filterMap (fun p =>
      if p.1 ∈ seen then none
      else if p.2.notifyOnRecovery then
        some (⟨.recovery, p.2.lastIssue, false, p.2.firstDetectedAt, p.2.lastSentAt⟩ : AlertEvent)
      else none), ev.type = AlertEventType.recovery := by
  intro ev hev
  rcases List.mem_filterMap.mp hev with ⟨p, _, hp⟩
  by_cases h1 : p.1 ∈ seen
  · simp [h1] at hp
  · by_cases h2 : p.2.notifyOnRecovery
    · simp only [h1, if_false, h2, if_true, Option.some.injEq, if_neg h1] at hp
      rw [← hp]
    · simp [h1, h2] at hp

theorem process_filter_alerts (mc : Int) (st : List (String × AlertState))
    (issues : List ValidationIssue) (now : Int) :
    (AlertLimiter.process mc st issues now).1.filter
        (fun ev => ev.type = AlertEventType.alert) =
      (AlertLimiter.processIssues mc now st issues).1 := by
  have hty := processIssues_alert_types mc now issues st
  have hrec := filterMap_recovery_types
    ((AlertLimiter.processIssues mc now st issues).2) (issues.map defaultIssueKey)
  rcases hpe : AlertLimiter.processIssues mc now st issues with ⟨alerts, st1⟩
  rw [hpe] at hty hrec
  simp only [AlertLimiter.process, hpe]
  rw [List.filter_append]
  have h1 : alerts.filter (fun ev => ev.type = AlertEventType.alert) = alerts := by
    rw [List.filter_eq_self]
    intro a ha
    simp [hty a ha]
  have h2 : (st1.filterMap (fun p =>
      if p.1 ∈ issues.map defaultIssueKey then none
      else if p.2.notifyOnRecovery then
        some (⟨.recovery, p.2.lastIssue, false, p.2.firstDetectedAt, p.2.lastSentAt⟩ : AlertEvent)
      else none)).filter (fun ev => ev.type = AlertEventType.alert) = [] := by
    rw [List.filter_eq_nil_iff]
    intro a ha
    simp [hrec a ha]
  rw [h1, h2, List.append_nil]

theorem process_lookup (mc : Int) (st : List (String × AlertState))
    (issues : List ValidationIssue) (now : Int) (k : String) :
    ((AlertLimiter.process mc st issues now).2).lookup k =
      if k ∈ issues.map defaultIssueKey
      then ((AlertLimiter.processIssues mc now st issues).2).lookup k
      else none := by
  rcases hpe : AlertLimiter.processIssues mc now st issues with ⟨alerts, st1⟩
  simp only [AlertLimiter.process, hpe]
  rw [lookup_filter_keyset]

theorem process_events_split (mc : Int) (st : List (String × AlertState))
    (issues : List ValidationIssue) (now : Int) :
    (AlertLimiter.process mc st issues now).1 =
      (AlertLimiter.processIssues mc now st issues).1 ++
      ((AlertLimiter.processIssues mc now st issues).2).filterMap (fun p =>
        if p.1 ∈ issues.map defaultIssueKey then none
        else if p.2.notifyOnRecovery then
          some (⟨.recovery, p.2.lastIssue, false, p.2.firstDetectedAt, p.2.lastSentAt⟩ : AlertEvent)
        else none) := by
  rcases hpe : AlertLimiter.processIssues mc now st issues with ⟨alerts, st1⟩
  simp only [AlertLimiter.process, hpe]

/-- C4: first sighting of an issue key emits exactly one alert with
`repeat=false` and records `firstDetectedAt = lastSentAt = now`; while the
key persists, a repeat alert is emitted iff `now - lastSentAt` has reached
`max(cooldownMinutes·60 s, floor)` (updating `lastSentAt`), else the sighting
is suppressed with the state's `lastSentAt` unchanged; and in the concrete
floor scenario (`cooldownMinutes = 0`, 60-minute floor) the calls at `t=0`,
`t=30min`, `t=61min` emit one fresh alert, nothing, and one repeat alert. -/
theorem alertLimiter_cooldown_behavior (minCooldownMs : Int)
    (st : List (String × AlertState)) (issue : ValidationIssue) (now : Int) :
    (st.lookup (defaultIssueKey issue) = none →
      (AlertLimiter.process minCooldownMs st [issue] now).1.filter
          (fun ev => ev.type = AlertEventType.alert) =
        [⟨.alert, issue, false, now, none⟩] ∧
      ((AlertLimiter.process minCooldownMs st [issue] now).2).lookup
          (defaultIssueKey issue) =
        some ⟨issue, now, some now, issue.notifyOnRecovery⟩) ∧
    (∀ s0 sentAt, st.lookup (defaultIssueKey issue) = some s0 →
      s0.lastSentAt = some sentAt →
      (now - sentAt ≥ max (max 0 issue.cooldownMinutes * 60 * 1000) minCooldownMs →
        (AlertLimiter.process minCooldownMs st [issue] now).1.filter
            (fun ev => ev.type = AlertEventType.alert) =
          [⟨.alert, issue, true, s0.firstDetectedAt, some sentAt⟩] ∧
        ((AlertLimiter.process minCooldownMs st [issue] now).2).lookup
            (defaultIssueKey issue) =
          some ⟨issue, s0.firstDetectedAt, some now, issue.notifyOnRecovery⟩) ∧
      (now - sentAt < max (max 0 issue.cooldownMinutes * 60 * 1000) minCooldownMs →
        (AlertLimiter.process minCooldownMs st [issue] now).1.filter
            (fun ev => ev.type = AlertEventType.alert) = [] ∧
        ((AlertLimiter.process minCooldownMs st [issue] now).2).lookup
            (defaultIssueKey issue) =
          some ⟨issue, s0.firstDetectedAt, some sentAt, issue.notifyOnRecovery⟩)) ∧
    ((AlertLimiter.process (minCooldownMsOf 60) [] [floorIssue] 0).1 =
        [⟨.alert, floorIssue, false, 0, none⟩] ∧
      (AlertLimiter.process (minCooldownMsOf 60)
          (AlertLimiter.process (minCooldownMsOf 60) [] [floorIssue] 0).2
          [floorIssue] 1800000).1 = [] ∧
      (AlertLimiter.process (minCooldownMsOf 60)
          (AlertLimiter.process (minCooldownMsOf 60)
            (AlertLimiter.process (minCooldownMsOf 60) [] [floorIssue] 0).2
            [floorIssue] 1800000).2
          [floorIssue] 3660000).1 =
        [⟨.alert, floorIssue, true, 0, some 0⟩]) := by
  refine ⟨?_, ?_, by decide⟩
  · intro hnone
    constructor
    · rw [process_filter_alerts, processIssues_cons_new minCooldownMs now st issue [] hnone]
      simp [AlertLimiter.processIssues]
    · rw [process_lookup]
      rw [if_pos (by simp)]
      rw [processIssues_cons_new minCooldownMs now st issue [] hnone]
      simp only [AlertLimiter.processIssues]
      rw [lookup_msetA_self]
  · intro s0 sentAt hsome hsent
    constructor
    · intro hcd
      constructor
      · rw [process_filter_alerts,
          processIssues_cons_repeat_send minCooldownMs now st issue [] s0 sentAt hsome hsent hcd]
        simp [AlertLimiter.processIssues]
      · rw [process_lookup, if_pos (by simp)]
        rw [processIssues_cons_repeat_send minCooldownMs now st issue [] s0 sentAt hsome hsent hcd]
        simp only [AlertLimiter.processIssues]
        rw [lookup_msetA_self]
    · intro hcd
      have hcd' : ¬ now - sentAt ≥ max (max 0 issue.cooldownMinutes * 60 * 1000) minCooldownMs :=
        not_le.mpr hcd
      constructor
      · rw [process_filter_alerts,
          processIssues_cons_suppress minCooldownMs now st issue [] s0 sentAt hsome hsent hcd']
        simp [AlertLimiter.processIssues]
      · rw [process_lookup, if_pos (by simp)]
        rw [processIssues_cons_suppress minCooldownMs now st issue [] s0 sentAt hsome hsent hcd']
        simp only [AlertLimiter.processIssues]
        rw [lookup_msetA_self]

theorem alertLimiter_cooldown_behavior_witness :
    (AlertLimiter.process (minCooldownMsOf 60) [] [floorIssue] 0).1.filter
        (fun ev => ev.type = AlertEventType.alert) =
      [⟨.alert, floorIssue, false, 0, none⟩] ∧
    ((AlertLimiter.process (minCooldownMsOf 60) [] [floorIssue] 0).2).lookup
        (defaultIssueKey floorIssue) =
      some ⟨floorIssue, 0, some 0, floorIssue.notifyOnRecovery⟩ :=
  (alertLimiter_cooldown_behavior (minCooldownMsOf 60) [] floorIssue 0).1 rfl

/-- C9: after `process(issues, now)` returns, the tracked keys are exactly
the keys of the issues just passed; a key absent from the batch is removed
whether or not `notifyOnRecovery` is set, with a recovery event (carrying the
last stored issue) emitted exactly for removed entries whose flag is set; and
every surviving entry's `lastIssue` and `notifyOnRecovery` reflect the latest
sighting in the batch even when the alert itself was suppressed. -/
theorem alertLimiter_state_sync (mc : Int) (st : List (String × AlertState))
    (issues : List ValidationIssue) (now : Int)
    (hnd : (st.map Prod.fst).Nodup) :
    (∀ k, (((AlertLimiter.process mc st issues now).2).lookup k).isSome ↔
        k ∈ issues.map defaultIssueKey) ∧
    (∀ k s0, st.lookup k = some s0 → k ∉ issues.map defaultIssueKey →
        ((AlertLimiter.process mc st issues now).2).lookup k = none ∧
        (s0.notifyOnRecovery = true →
          (⟨.recovery, s0.lastIssue, false, s0.firstDetectedAt, s0.lastSentAt⟩ : AlertEvent)
            ∈ (AlertLimiter.process mc st issues now).1)) ∧
    (∀ ev ∈ (AlertLimiter.process mc st issues now).1,
        ev.type = AlertEventType.recovery →
        ∃ k s0, st.lookup k = some s0 ∧ k ∉ issues.map defaultIssueKey ∧
          s0.notifyOnRecovery = true ∧
          ev = ⟨.recovery, s0.lastIssue, false, s0.firstDetectedAt, s0.lastSentAt⟩) ∧
    (∀ k, k ∈ issues.map defaultIssueKey →
        ∃ s1, ((AlertLimiter.process mc st issues now).2).lookup k = some s1 ∧
          (issues.filter (fun i => defaultIssueKey i = k)).getLast? = some s1.lastIssue ∧
          s1.notifyOnRecovery = s1.lastIssue.notifyOnRecovery) := by
  refine ⟨?_, ?_, ?_, ?_⟩
  · intro k
    rw [process_lookup]
    by_cases hk : k ∈ issues.map defaultIssueKey
    · rw [if_pos hk]
      obtain ⟨s1, h1, _, _⟩ := processIssues_lookup_mem mc now issues st k hk
      simp [h1, hk]
    · simp [hk]
  · intro k s0 hs0 hk
    constructor
    · rw [process_lookup, if_neg hk]
    · intro hnotify
      rw [process_events_split]
      refine List.mem_append_right _ ?_
      refine List.mem_filterMap.mpr ⟨(k, s0), ?_, ?_⟩
      · apply lookup_mem
        rw [processIssues_lookup_not_mem mc now issues st k hk]
        exact hs0
      · simp [hk, hnotify]
  · intro ev hev hrec
    rw [process_events_split] at hev
    rcases List.mem_append.mp hev with h1 | h2
    · have := processIssues_alert_types mc now issues st ev h1
      rw [this] at hrec
      exact absurd hrec (by simp)
    · rcases List.mem_filterMap.mp h2 with ⟨p, hp1, hp2⟩
      rcases p with ⟨k, s1⟩
      by_cases hks : k ∈ issues.map defaultIssueKey
      · simp [hks] at hp2
      · by_cases hnot : s1.notifyOnRecovery
        · simp only [hks, if_false, hnot, if_true, Option.some.injEq, if_neg hks] at hp2
          refine ⟨k, s1, ?_, hks, hnot, hp2.symm⟩
          rw [← processIssues_lookup_not_mem mc now issues st k hks]
          exact mem_lookup_of_nodup _ _ _ (processIssues_nodup_keys mc now issues st hnd) hp1
        · simp [hks, hnot] at hp2
  · intro k hk
    obtain ⟨s1, h1, h2, h3⟩ := processIssues_lookup_mem mc now issues st k hk
    refine ⟨s1, ?_, h2, h3⟩
    rw [process_lookup, if_pos hk]
    exact h1

theorem alertLimiter_state_sync_witness :
    ((AlertLimiter.process (minCooldownMsOf 60)
        [(defaultIssueKey recIssue, ⟨recIssue, 5, some 5, true⟩)]
        [floorIssue] 100).2).lookup (defaultIssueKey recIssue) = none ∧
    (⟨.recovery, recIssue, false, 5, some 5⟩ : AlertEvent) ∈
      (AlertLimiter.process (minCooldownMsOf 60)
        [(defaultIssueKey recIssue, ⟨recIssue, 5, some 5, true⟩)]
        [floorIssue] 100).1 := by
  have h := (alertLimiter_state_sync (minCooldownMsOf 60)
      [(defaultIssueKey recIssue, ⟨recIssue, 5, some 5, true⟩)]
      [floorIssue] 100 (by simp)).2.1
      (defaultIssueKey recIssue) ⟨recIssue, 5, some 5, true⟩
      (by simp [List.lookup_cons]) (by decide)
  exact ⟨h.1, h.2 rfl⟩

theorem mem_setFrom_aux (xs acc : List String) (x : String) :
    x ∈ xs.foldl insertUnique acc ↔ x ∈ acc ∨ x ∈ xs := by
  induction xs generalizing acc with
  | nil => simp
  | cons y t ih =>
    simp only [List.foldl_cons, ih, insertUnique]
    by_cases hy : y ∈ acc
    · simp only [hy, if_true, List.mem_cons]
      constructor
      · rintro (h | h)
        · exact Or.inl h
        · exact Or.inr (Or.inr h)
      · rintro (h | h | h)
        · exact Or.inl h
        · exact Or.inl (h ▸ hy)
        · exact Or.inr h
    · simp only [hy, if_false, List.mem_append, List.mem_cons, List.not_mem_nil,
        or_false]
      constructor
      · rintro ((h | h) | h)
        · exact Or.inl h
        · exact Or.inr (Or.inl h)
        · exact Or.inr (Or.inr h)
      · rintro (h | h | h)
        · exact Or.inl (Or.inl h)
        · exact Or.inl (Or.inr h)
        · exact Or.inr h

theorem mem_setFrom (xs : List String) (x : String) :
    x ∈ setFrom xs ↔ x ∈ xs := by
  unfold setFrom
  rw [mem_setFrom_aux]
  simp

theorem mem_candidateAssets_of_snapshot (cfg : RulesConfig) (ctx : AccountContext)
    (p : PositionSnapshot) (hp : p ∈ ctx.snapshots) :
    p.baseAsset ∈ candidateAssets cfg ctx.snapshots := by
  unfold candidateAssets
  rw [mem_setFrom]
  refine List.mem_append_right _ ?_
  unfold assetKeys
  rw [mem_setFrom]
  exact List.mem_map.mpr ⟨p, hp, rfl⟩

theorem mem_groupSide (snaps : List PositionSnapshot) (a : String)
    (d : PosDirection) (p : PositionSnapshot) :
    p ∈ groupSide snaps a d ↔ p ∈ snaps ∧ p.baseAsset = a ∧ p.direction = d := by
  unfold groupSide
  rw [List.mem_filter]
  simp

theorem mem_fundingShortFor (rule : PositionRule) (a : String)
    (p : PositionSnapshot) (i : ValidationIssue) :
    i ∈ fundingShortFor rule a p ↔
      ∃ t, rule.fundingThresholdShort = some t ∧
        ((p.predictedFundingRate = none ∧ i = fundingMissingIssue rule a .short p) ∨
         ∃ r, p.predictedFundingRate = some r ∧ r < t ∧
           i = fundingShortIssue rule a p t r) := by
  unfold fundingShortFor
  rcases hth : rule.fundingThresholdShort with _ | t
  · simp
  · rcases hr : p.predictedFundingRate with _ | r
    · simp [hr]
    · by_cases hlt : r < t
      · simp [hr, hlt]
      · simp [hr, hlt]

theorem mem_fundingLongFor (rule : PositionRule) (a : String)
    (p : PositionSnapshot) (i : ValidationIssue) :
    i ∈ fundingLongFor rule a p ↔
      ∃ t, rule.fundingThresholdLong = some t ∧
        ((p.predictedFundingRate = none ∧ i = fundingMissingIssue rule a .long p) ∨
         ∃ r, p.predictedFundingRate = some r ∧ r > t ∧
           i = fundingLongIssue rule a p t r) := by
  unfold fundingLongFor
  rcases hth : rule.fundingThresholdLong with _ | t
  · simp
  · rcases hr : p.predictedFundingRate with _ | r
    · simp [hr]
    · by_cases hlt : r > t
      · simp [hr, hlt]
      · simp [hr, hlt]

theorem mem_configErrorIssues (rule : PositionRule) (a : String)
    (i : ValidationIssue) (h : i ∈ configErrorIssues rule a) :
    i.baseAsset = a ∧ i.rule = RuleKind.config_error := by
  unfold configErrorIssues at h
  simp only [List.append_nil, List.mem_append] at h
  rcases h with h | h <;> (split at h <;> simp_all)

theorem mem_whitelistIssues (rule : PositionRule) (a : String)
    (longs shorts : List PositionSnapshot) (i : ValidationIssue)
    (h : i ∈ whitelistIssues rule a longs shorts) :
    i.baseAsset = a ∧ i.rule = RuleKind.whitelist_violation := by
  unfold whitelistIssues at h
  simp only [List.mem_append] at h
  rcases h with h | h <;> (split at h <;> simp_all)

theorem mem_blacklistIssues (rule : PositionRule) (a : String)
    (longs shorts : List PositionSnapshot) (i : ValidationIssue)
    (h : i ∈ blacklistIssues rule a longs shorts) :
    i.baseAsset = a ∧ i.rule = RuleKind.blacklist_violation := by
  unfold blacklistIssues at h
  simp only [List.mem_append] at h
  rcases h with h | h <;> (split at h <;> simp_all)

theorem mem_leverageIssues (rule : PositionRule) (a : String)
    (positions : List PositionSnapshot) (i : ValidationIssue)
    (h : i ∈ leverageIssues rule a positions) :
    i.baseAsset = a ∧ i.rule = RuleKind.leverage_limit := by
  unfold leverageIssues at h
  split at h
  · simp at h
  · rcases List.mem_flatMap.mp h with ⟨p, _, hp⟩
    split at hp <;> simp_all

theorem mem_marginShareIssues (rule : PositionRule) (a : String)
    (tmb : ℚ) (longs shorts : List PositionSnapshot) (i : ValidationIssue)
    (h : i ∈ marginShareIssues rule a tmb longs shorts) :
    i.baseAsset = a ∧ i.rule = RuleKind.margin_share_limit := by
  unfold marginShareIssues at h
  split at h
  · simp at h
  · split at h
    · simp only [List.mem_append] at h
      rcases h with h | h <;> (split at h <;> simp_all)
    · simp at h

theorem mem_accountIssues (cfg : RulesConfig) (ctx : AccountContext)
    (i : ValidationIssue) (h : i ∈ accountIssues cfg ctx) :
    i.baseAsset = "__account__" ∧ i.direction = IssueDirection.global ∧
      (i.rule = RuleKind.data_missing ∨ i.rule = RuleKind.total_margin_usage) := by
  unfold accountIssues at h
  split at h
  · simp_all
  · split at h
    · simp at h
    · simp only [] at h
      split at h <;> simp_all

theorem accountIssues_nonpos (cfg : RulesConfig) (ctx : AccountContext)
    (h : ctx.totalMarginBalance ≤ 0) :
    accountIssues cfg ctx =
      [{ rule := .data_missing, baseAsset := "__account__", direction := .global
         severity := .critical, cooldownMinutes := cfg.defaultCooldownMinutes
         notifyOnRecovery := cfg.defaultNotifyRecovery }] := by
  simp [accountIssues, h]

theorem mem_symbolIssuesFor (cfg : RulesConfig) (ctx : AccountContext)
    (metrics : String → Option SymbolMetrics) (s : String) (i : ValidationIssue)
    (h : i ∈ symbolIssuesFor cfg ctx metrics s) :
    i.direction = IssueDirection.global ∧
      i.rule ≠ RuleKind.total_margin_usage ∧
      i.rule ≠ RuleKind.funding_rate_limit := by
  simp only [symbolIssuesFor] at h
  split at h
  · simp at h
  · simp only [List.mem_append] at h
    rcases h with ((((h | h) | h) | h) | h)
    · split at h
      · split at h
        · simp only [List.mem_append] at h
          rcases h with h | h <;> (split at h <;> simp_all)
        · simp at h
      · simp at h
    · split at h
      · split at h <;> simp_all
      · simp at h
    · split at h
      · split at h <;> simp_all
      · simp at h
    · split at h
      · split at h <;> simp_all
      · simp at h
    · split at h <;> simp_all

theorem mem_symbolIssues (cfg : RulesConfig) (ctx : AccountContext)
    (metrics : String → Option SymbolMetrics) (i : ValidationIssue)
    (h : i ∈ symbolIssues cfg ctx metrics) :
    i.direction = IssueDirection.global ∧
      i.rule ≠ RuleKind.total_margin_usage ∧
      i.rule ≠ RuleKind.funding_rate_limit := by
  rcases List.mem_flatMap.mp h with ⟨s, _, hs⟩
  exact mem_symbolIssuesFor cfg ctx metrics s i hs

theorem mem_assetIssues_iff (cfg : RulesConfig) (ctx : AccountContext)
    (a : String) (i : ValidationIssue) :
    i ∈ assetIssues cfg ctx a ↔
      i ∈ configErrorIssues (cfg.ruleFor a) a ∨
      i ∈ whitelistIssues (cfg.ruleFor a) a (groupSide ctx.snapshots a .long)
          (groupSide ctx.snapshots a .short) ∨
      i ∈ blacklistIssues (cfg.ruleFor a) a (groupSide ctx.snapshots a .long)
          (groupSide ctx.snapshots a .short) ∨
      i ∈ leverageIssues (cfg.ruleFor a) a
          (groupSide ctx.snapshots a .long ++ groupSide ctx.snapshots a .short) ∨
      i ∈ marginShareIssues (cfg.ruleFor a) a ctx.totalMarginBalance
          (groupSide ctx.snapshots a .long) (groupSide ctx.snapshots a .short) ∨
      i ∈ (groupSide ctx.snapshots a .short).flatMap (fundingShortFor (cfg.ruleFor a) a) ∨
      i ∈ (groupSide ctx.snapshots a .long).flatMap (fundingLongFor (cfg.ruleFor a) a) := by
  unfold assetIssues
  simp [List.mem_append, or_assoc]

theorem mem_evaluate_iff (cfg : RulesConfig) (ctx : AccountContext)
    (metrics : String → Option SymbolMetrics) (i : ValidationIssue) :
    i ∈ PositionRuleEngine.evaluate cfg ctx metrics ↔
      (∃ a ∈ candidateAssets cfg ctx.snapshots, i ∈ assetIssues cfg ctx a) ∨
      i ∈ accountIssues cfg ctx ∨ i ∈ symbolIssues cfg ctx metrics := by
  unfold PositionRuleEngine.evaluate
  simp [List.mem_append, List.mem_flatMap, or_assoc]

/-- C7: with a non-positive total margin balance the engine emits the
account-wide critical `data_missing` issue and never a `total_margin_usage`
issue. -/
theorem positionRuleEngine_nonpositive_margin (cfg : RulesConfig)
    (ctx : AccountContext) (metrics : String → Option SymbolMetrics)
    (h : ctx.totalMarginBalance ≤ 0) :
    (({ rule := .data_missing, baseAsset := "__account__", direction := .global
        severity := .critical, cooldownMinutes := cfg.defaultCooldownMinutes
        notifyOnRecovery := cfg.defaultNotifyRecovery } : ValidationIssue) ∈
      PositionRuleEngine.evaluate cfg ctx metrics) ∧
    ∀ i ∈ PositionRuleEngine.evaluate cfg ctx metrics,
      i.rule ≠ RuleKind.total_margin_usage := by
  constructor
  · rw [mem_evaluate_iff]
    refine Or.inr (Or.inl ?_)
    rw [accountIssues_nonpos cfg ctx h]
    exact List.mem_singleton.mpr rfl
  · intro i hi
    rw [mem_evaluate_iff] at hi
    rcases hi with ⟨a, _, hai⟩ | hacc | hsym
    · rw [mem_assetIssues_iff] at hai
      rcases hai with h1 | h1 | h1 | h1 | h1 | h1 | h1
      · rw [(mem_configErrorIssues _ _ _ h1).2]
        simp
      · rw [(mem_whitelistIssues _ _ _ _ _ h1).2]
        simp
      · rw [(mem_blacklistIssues _ _ _ _ _ h1).2]
        simp
      · rw [(mem_leverageIssues _ _ _ _ h1).2]
        simp
      · rw [(mem_marginShareIssues _ _ _ _ _ _ h1).2]
        simp
      · rcases List.mem_flatMap.mp h1 with ⟨p, _, hp⟩
        rw [mem_fundingShortFor] at hp
        rcases hp with ⟨t, _, ⟨_, rfl⟩ | ⟨r, _, _, rfl⟩⟩ <;>
          simp [fundingMissingIssue, fundingShortIssue]
      · rcases List.mem_flatMap.mp h1 with ⟨p, _, hp⟩
        rw [mem_fundingLongFor] at hp
        rcases hp with ⟨t, _, ⟨_, rfl⟩ | ⟨r, _, _, rfl⟩⟩ <;>
          simp [fundingMissingIssue, fundingLongIssue]
    · rw [accountIssues_nonpos cfg ctx h] at hacc
      rcases List.mem_singleton.mp hacc with rfl
      simp
    · exact (mem_symbolIssues cfg ctx metrics i hsym).2.1

theorem positionRuleEngine_nonpositive_margin_witness :
    (({ rule := .data_missing, baseAsset := "__account__", direction := .global
        severity := .critical, cooldownMinutes := cfgFunding.defaultCooldownMinutes
        notifyOnRecovery := cfgFunding.defaultNotifyRecovery } : ValidationIssue) ∈
      PositionRuleEngine.evaluate cfgFunding ctxZeroMargin (fun _ => none)) ∧
    ∀ i ∈ PositionRuleEngine.evaluate cfgFunding ctxZeroMargin (fun _ => none),
      i.rule ≠ RuleKind.total_margin_usage :=
  positionRuleEngine_nonpositive_margin cfgFunding ctxZeroMargin (fun _ => none)
    (by decide)

/-- C2: for every short position with a configured short funding threshold, a
`funding_rate_limit` warning naming the position is emitted iff the predicted
funding rate is strictly below the threshold (a `data_missing` warning when
the rate is nil); for every long position with a configured long funding
threshold, the warning is emitted iff the rate is strictly above the
threshold (again `data_missing` when nil). -/
theorem positionRuleEngine_funding_rate_rules (cfg : RulesConfig)
    (ctx : AccountContext) (metrics : String → Option SymbolMetrics)
    (hnodup : (ctx.snapshots.map (fun s => (s.symbol, s.direction))).Nodup) :
    (∀ p ∈ ctx.snapshots, p.direction = PosDirection.short →
      ∀ t, (cfg.ruleFor p.baseAsset).fundingThresholdShort = some t →
        (p.predictedFundingRate = none →
          ∃ i ∈ PositionRuleEngine.evaluate cfg ctx metrics,
            i.rule = RuleKind.data_missing ∧ i.baseAsset = p.baseAsset ∧
            i.direction = IssueDirection.short ∧ i.detailSymbol = some p.symbol) ∧
        (∀ r, p.predictedFundingRate = some r →
          ((∃ i ∈ PositionRuleEngine.evaluate cfg ctx metrics,
              i.rule = RuleKind.funding_rate_limit ∧ i.baseAsset = p.baseAsset ∧
              i.direction = IssueDirection.short ∧ i.detailSymbol = some p.symbol) ↔
            r < t))) ∧
    (∀ p ∈ ctx.snapshots, p.direction = PosDirection.long →
      ∀ t, (cfg.ruleFor p.baseAsset).fundingThresholdLong = some t →
        (p.predictedFundingRate = none →
          ∃ i ∈ PositionRuleEngine.evaluate cfg ctx metrics,
            i.rule = RuleKind.data_missing ∧ i.baseAsset = p.baseAsset ∧
            i.direction = IssueDirection.long ∧ i.detailSymbol = some p.symbol) ∧
        (∀ r, p.predictedFundingRate = some r →
          ((∃ i ∈ PositionRuleEngine.evaluate cfg ctx metrics,
              i.rule = RuleKind.funding_rate_limit ∧ i.baseAsset = p.baseAsset ∧
              i.direction = IssueDirection.long ∧ i.detailSymbol = some p.symbol) ↔
            t < r))) := by
  constructor
  · intro p hp hdir t hthr
    constructor
    · intro hnil
      refine ⟨fundingMissingIssue (cfg.ruleFor p.baseAsset) p.baseAsset .short p, ?_, ?_⟩
      · rw [mem_evaluate_iff]
        refine Or.inl ⟨p.baseAsset, mem_candidateAssets_of_snapshot cfg ctx p hp, ?_⟩
        rw [mem_assetIssues_iff]
        refine Or.inr (Or.inr (Or.inr (Or.inr (Or.inr (Or.inl ?_)))))
        refine List.mem_flatMap.mpr ⟨p, (mem_groupSide _ _ _ _).mpr ⟨hp, rfl, hdir⟩, ?_⟩
        rw [mem_fundingShortFor]
        exact ⟨t, hthr, Or.inl ⟨hnil, rfl⟩⟩
      · simp [fundingMissingIssue, PosDirection.toIssueDirection]
    · intro r hrate
      constructor
      · rintro ⟨i, hi, hrule, hbase, hdir', hsym⟩
        rw [mem_evaluate_iff] at hi
        rcases hi with ⟨a, _, hai⟩ | hacc | hsym'
        · rw [mem_assetIssues_iff] at hai
          rcases hai with h1 | h1 | h1 | h1 | h1 | h1 | h1
          · rw [(mem_configErrorIssues _ _ _ h1).2] at hrule
            exact absurd hrule (by simp)
          · rw [(mem_whitelistIssues _ _ _ _ _ h1).2] at hrule
            exact absurd hrule (by simp)
          · rw [(mem_blacklistIssues _ _ _ _ _ h1).2] at hrule
            exact absurd hrule (by simp)
          · rw [(mem_leverageIssues _ _ _ _ h1).2] at hrule
            exact absurd hrule (by simp)
          · rw [(mem_marginShareIssues _ _ _ _ _ _ h1).2] at hrule
            exact absurd hrule (by simp)
          · rcases List.mem_flatMap.mp h1 with ⟨p', hp'g, hp'⟩
            rw [mem_fundingShortFor] at hp'
            rcases hp' with ⟨t', hthr', hcase⟩
            rcases hcase with ⟨_, rfl⟩ | ⟨r', hrate', hlt', rfl⟩
            · rw [show (fundingMissingIssue (cfg.ruleFor a) a .short p').rule =
                  RuleKind.data_missing from rfl] at hrule
              exact absurd hrule (by simp)
            · have hba : a = p.baseAsset := by
                simpa [fundingShortIssue] using hbase
              have hsy : p'.symbol = p.symbol := by
                simpa [fundingShortIssue] using hsym
              rcases (mem_groupSide _ _ _ _).mp hp'g with ⟨hp'mem, _, hp'dir⟩
              have hpp : p' = p := by
                refine List.inj_on_of_nodup_map hnodup hp'mem hp ?_
                rw [hsy, hp'dir, hdir]
              subst hpp
              rw [hba] at hthr'
              rw [hthr] at hthr'
              rw [hrate] at hrate'
              have ht : t' = t := by injection hthr'.symm
              have hr : r' = r := by injection hrate'.symm
              rw [← ht, ← hr]
              exact hlt'
          · rcases List.mem_flatMap.mp h1 with ⟨p', _, hp'⟩
            rw [mem_fundingLongFor] at hp'
            rcases hp' with ⟨t', _, ⟨_, rfl⟩ | ⟨r', _, _, rfl⟩⟩
            · rw [show (fundingMissingIssue (cfg.ruleFor a) a .long p').rule =
                  RuleKind.data_missing from rfl] at hrule
              exact absurd hrule (by simp)
            · have : (fundingLongIssue (cfg.ruleFor a) a p' t' r').direction =
                  IssueDirection.long := rfl
              rw [this] at hdir'
              exact absurd hdir' (by simp)
        · rcases mem_accountIssues cfg ctx i hacc with ⟨_, hdi, _⟩
          rw [hdi] at hdir'
          exact absurd hdir' (by simp)
        · have := (mem_symbolIssues cfg ctx metrics i hsym').2.2
          exact absurd hrule this
      · intro hlt
        refine ⟨fundingShortIssue (cfg.ruleFor p.baseAsset) p.baseAsset p t r, ?_, ?_⟩
        · rw [mem_evaluate_iff]
          refine Or.inl ⟨p.baseAsset, mem_candidateAssets_of_snapshot cfg ctx p hp, ?_⟩
          rw [mem_assetIssues_iff]
          refine Or.inr (Or.inr (Or.inr (Or.inr (Or.inr (Or.inl ?_)))))
          refine List.mem_flatMap.mpr ⟨p, (mem_groupSide _ _ _ _).mpr ⟨hp, rfl, hdir⟩, ?_⟩
          rw [mem_fundingShortFor]
          exact ⟨t, hthr, Or.inr ⟨r, hrate, hlt, rfl⟩⟩
        · simp [fundingShortIssue]
  · intro p hp hdir t hthr
    constructor
    · intro hnil
      refine ⟨fundingMissingIssue (cfg.ruleFor p.baseAsset) p.baseAsset .long p, ?_, ?_⟩
      · rw [mem_evaluate_iff]
        refine Or.inl ⟨p.baseAsset, mem_candidateAssets_of_snapshot cfg ctx p hp, ?_⟩
        rw [mem_assetIssues_iff]
        refine Or.inr (Or.inr (Or.inr (Or.inr (Or.inr (Or.inr ?_)))))
        refine List.mem_flatMap.mpr ⟨p, (mem_groupSide _ _ _ _).mpr ⟨hp, rfl, hdir⟩, ?_⟩
        rw [mem_fundingLongFor]
        exact ⟨t, hthr, Or.inl ⟨hnil, rfl⟩⟩
      · simp [fundingMissingIssue, PosDirection.toIssueDirection]
    · intro r hrate
      constructor
      · rintro ⟨i, hi, hrule, hbase, hdir', hsym⟩
        rw [mem_evaluate_iff] at hi
        rcases hi with ⟨a, _, hai⟩ | hacc | hsym'
        · rw [mem_assetIssues_iff] at hai
          rcases hai with h1 | h1 | h1 | h1 | h1 | h1 | h1
          · rw [(mem_configErrorIssues _ _ _ h1).2] at hrule
            exact absurd hrule (by simp)
          · rw [(mem_whitelistIssues _ _ _ _ _ h1).2] at hrule
            exact absurd hrule (by simp)
          · rw [(mem_blacklistIssues _ _ _ _ _ h1).2] at hrule
            exact absurd hrule (by simp)
          · rw [(mem_leverageIssues _ _ _ _ h1).2] at hrule
            exact absurd hrule (by simp)
          · rw [(mem_marginShareIssues _ _ _ _ _ _ h1).2] at hrule
            exact absurd hrule (by simp)
          · rcases List.mem_flatMap.mp h1 with ⟨p', _, hp'⟩
            rw [mem_fundingShortFor] at hp'
            rcases hp' with ⟨t', _, ⟨_, rfl⟩ | ⟨r', _, _, rfl⟩⟩
            · rw [show (fundingMissingIssue (cfg.ruleFor a) a .short p').rule =
                  RuleKind.data_missing from rfl] at hrule
              exact absurd hrule (by simp)
            · have : (fundingShortIssue (cfg.ruleFor a) a p' t' r').direction =
                  IssueDirection.short := rfl
              rw [this] at hdir'
              exact absurd hdir' (by simp)
          · rcases List.mem_flatMap.mp h1 with ⟨p', hp'g, hp'⟩
            rw [mem_fundingLongFor] at hp'
            rcases hp' with ⟨t', hthr', hcase⟩
            rcases hcase with ⟨_, rfl⟩ | ⟨r', hrate', hlt', rfl⟩
            · rw [show (fundingMissingIssue (cfg.ruleFor a) a .long p').rule =
                  RuleKind.data_missing from rfl] at hrule
              exact absurd hrule (by simp)
            · have hba : a = p.baseAsset := by
                simpa [fundingLongIssue] using hbase
              have hsy : p'.symbol = p.symbol := by
                simpa [fundingLongIssue] using hsym
              rcases (mem_groupSide _ _ _ _).mp hp'g with ⟨hp'mem, _, hp'dir⟩
              have hpp : p' = p := by
                refine List.inj_on_of_nodup_map hnodup hp'mem hp ?_
                rw [hsy, hp'dir, hdir]
              subst hpp
              rw [hba] at hthr'
              rw [hthr] at hthr'
              rw [hrate] at hrate'
              have ht : t' = t := by injection hthr'.symm
              have hr : r' = r := by injection hrate'.symm
              rw [← ht, ← hr]
              exact hlt'
        · rcases mem_accountIssues cfg ctx i hacc with ⟨_, hdi, _⟩
          rw [hdi] at hdir'
          exact absurd hdir' (by simp)
        · have := (mem_symbolIssues cfg ctx metrics i hsym').2.2
          exact absurd hrule this
      · intro hlt
        refine ⟨fundingLongIssue (cfg.ruleFor p.baseAsset) p.baseAsset p t r, ?_, ?_⟩
        · rw [mem_evaluate_iff]
          refine Or.inl ⟨p.baseAsset, mem_candidateAssets_of_snapshot cfg ctx p hp, ?_⟩
          rw [mem_assetIssues_iff]
          refine Or.inr (Or.inr (Or.inr (Or.inr (Or.inr (Or.inr ?_)))))
          refine List.mem_flatMap.mpr ⟨p, (mem_groupSide _ _ _ _).mpr ⟨hp, rfl, hdir⟩, ?_⟩
          rw [mem_fundingLongFor]
          exact ⟨t, hthr, Or.inr ⟨r, hrate, hlt, rfl⟩⟩
        · simp [fundingLongIssue]

theorem positionRuleEngine_funding_rate_rules_witness :
    (∃ i ∈ PositionRuleEngine.evaluate cfgFunding ctxFunding (fun _ => none),
      i.rule = RuleKind.funding_rate_limit ∧ i.baseAsset = shortPosFix.baseAsset ∧
      i.direction = IssueDirection.short ∧ i.detailSymbol = some shortPosFix.symbol) ∧
    (∃ i ∈ PositionRuleEngine.evaluate cfgFunding ctxFunding (fun _ => none),
      i.rule = RuleKind.funding_rate_limit ∧ i.baseAsset = longPosFix.baseAsset ∧
      i.direction = IssueDirection.long ∧ i.detailSymbol = some longPosFix.symbol) := by
  have h := positionRuleEngine_funding_rate_rules cfgFunding ctxFunding
    (fun _ => none) (by decide)
  refine ⟨?_, ?_⟩
  · exact ((h.1 shortPosFix (by simp [ctxFunding]) rfl (-2) (by decide)).2
      (-3) (by decide)).mpr (by decide)
  · exact ((h.2 longPosFix (by simp [ctxFunding]) rfl 2 (by decide)).2
      3 (by decide)).mpr (by decide)

/-! ## Aggregator dedup and finalized-context lemmas -/


theorem ttlLookup_none {m : String → Option Int} {key : String} (now ttl : Int)
    (h : m key = none) : ttlLookup now ttl m key = (false, m) := by
  simp [ttlLookup, h]

theorem ttlLookup_fresh {m : String → Option Int} {key : String} {ts : Int}
    (now ttl : Int) (h : m key = some ts) (hf : ¬ now - ts > ttl) :
    ttlLookup now ttl m key = (true, m) := by
  simp [ttlLookup, h, hf]

theorem ttlLookup_snd_ne {m : String → Option Int} {k key : String} (now ttl : Int)
    (hk : k ≠ key) : (ttlLookup now ttl m key).2 k = m k := by
  unfold ttlLookup
  cases hm : m key <;> simp only [hm]
  split <;> simp [fdel, hk]

theorem pruneTimestampMap_keeps {m : String → Option Int} {k : String}
    {now ttl ts : Int} (h : m k = some ts) (hf : ¬ ts < now - ttl) :
    pruneTimestampMap now ttl m k = some ts := by
  simp [pruneTimestampMap, h, hf]

theorem markEventProcessed_keeps_ne {m : String → Option Int} {k key : String}
    {now ts : Int} (t : Int) (hk : k ≠ key) (h : m k = some ts)
    (hf : ¬ ts < now - PROCESSED_EVENT_TTL_MS) :
    markEventProcessed now m key t k = some ts := by
  unfold markEventProcessed
  exact pruneTimestampMap_keeps (by simp [fset, hk, h]) hf

theorem markEventProcessed_self {m : String → Option Int} {now t : Int}
    (key : String) (hf : ¬ t < now - PROCESSED_EVENT_TTL_MS) :
    markEventProcessed now m key t key = some t := by
  unfold markEventProcessed
  exact pruneTimestampMap_keeps (by simp [fset]) hf

theorem markContextFinalized_self {m : String → Option Int} {now t : Int}
    (key : String) (hf : ¬ t < now - FINALIZED_CONTEXT_TTL_MS) :
    markContextFinalized now m key t key = some t := by
  unfold markContextFinalized
  exact pruneTimestampMap_keeps (by simp [fset]) hf

theorem markContextFinalized_keeps_ne {m : String → Option Int} {k key : String}
    {now ts : Int} (t : Int) (hk : k ≠ key) (h : m k = some ts)
    (hf : ¬ ts < now - FINALIZED_CONTEXT_TTL_MS) :
    markContextFinalized now m key t k = some ts := by
  unfold markContextFinalized
  exact pruneTimestampMap_keeps (by simp [fset, hk, h]) hf

theorem resolvePresentation_processedEvents (st : AggState) (e : OrderEvent) :
    ((OrderAggregator.resolvePresentation st e).2).processedEvents =
      st.processedEvents := by
  simp only [OrderAggregator.resolvePresentation]
  repeat' split
  all_goals rfl

theorem resolvePresentation_finalizedContexts (st : AggState) (e : OrderEvent) :
    ((OrderAggregator.resolvePresentation st e).2).finalizedContexts =
      st.finalizedContexts := by
  simp only [OrderAggregator.resolvePresentation]
  repeat' split
  all_goals rfl

theorem clearContext_processedEvents (now : Int) (st : AggState) (e : OrderEvent) :
    (OrderAggregator.clearContext now st e).processedEvents = st.processedEvents := by
  simp only [OrderAggregator.clearContext]
  repeat' split
  all_goals rfl

theorem handleStopLikeOrder_processedEvents (windowMs now : Int) (st : AggState)
    (e : OrderEvent) (ctx : AggContext) :
    ((OrderAggregator.handleStopLikeOrder windowMs now st e ctx).1).processedEvents =
      st.processedEvents := by
  simp only [OrderAggregator.handleStopLikeOrder]
  split
  · simp [clearContext_processedEvents]
  · rename_i st1 heq
    have hpe : st1.processedEvents = st.processedEvents := by
      split_ifs at heq
      all_goals
        first
        | (exact Option.noConfusion heq)
        | (injection heq with h; rw [← h])
        | (rcases hoc : e.originalClientOrderId with _ | oc <;> rw [hoc] at heq <;>
            (injection heq with h; rw [← h]))
    repeat' split
    all_goals simp [hpe, clearContext_processedEvents, OrderAggregator.ensureTimer]

theorem handleGeneralOrder_processedEvents (windowMs now : Int) (st : AggState)
    (e : OrderEvent) (ctx : AggContext) :
    ((OrderAggregator.handleGeneralOrder windowMs now st e ctx).1).processedEvents =
      st.processedEvents := by
  simp only [OrderAggregator.handleGeneralOrder]
  repeat' split
  all_goals
    simp_all [clearContext_processedEvents, OrderAggregator.ensureTimer]

theorem clearContext_finalizedContexts_preserves {K : String} {ts : Int}
    (now : Int) (st : AggState) (e : OrderEvent)
    (hK : st.finalizedContexts K = some ts)
    (hf : ¬ ts < now - FINALIZED_CONTEXT_TTL_MS)
    (hor : isFinalStatus e.status = false ∨ aggregationKey e ≠ K) :
    (OrderAggregator.clearContext now st e).finalizedContexts K = some ts := by
  simp only [OrderAggregator.clearContext]
  split
  · rename_i hfin
    rcases hor with hor | hor
    · rw [hor] at hfin
      exact absurd hfin (by decide)
    · exact markContextFinalized_keeps_ne e.eventTimeMs (Ne.symm hor) hK hf
  · exact hK

theorem clearContext_finalized_mark (now : Int) (st : AggState) (e : OrderEvent)
    (hfin : isFinalStatus e.status = true)
    (hnow : ¬ e.eventTimeMs < now - FINALIZED_CONTEXT_TTL_MS) :
    (OrderAggregator.clearContext now st e).finalizedContexts (aggregationKey e) =
      some e.eventTimeMs := by
  simp only [OrderAggregator.clearContext]
  split
  · exact markContextFinalized_self _ hnow
  · rename_i h
    exact absurd hfin h

theorem handleStopLikeOrder_finalizedContexts_preserves {K : String} {ts : Int}
    (windowMs now : Int) (st : AggState) (e : OrderEvent) (ctx : AggContext)
    (hK : st.finalizedContexts K = some ts)
    (hf : ¬ ts < now - FINALIZED_CONTEXT_TTL_MS)
    (hor : isFinalStatus e.status = false ∨ aggregationKey e ≠ K) :
    ((OrderAggregator.handleStopLikeOrder windowMs now st e ctx).1).finalizedContexts K =
      some ts := by
  simp only [OrderAggregator.handleStopLikeOrder]
  split
  · exact clearContext_finalizedContexts_preserves now _ e hK hf hor
  · rename_i st1 heq
    have hpe : st1.finalizedContexts = st.finalizedContexts := by
      split_ifs at heq
      all_goals
        first
        | (exact Option.noConfusion heq)
        | (injection heq with h; rw [← h])
        | (rcases hoc : e.originalClientOrderId with _ | oc <;> rw [hoc] at heq <;>
            (injection heq with h; rw [← h]))
    repeat' split
    all_goals
      first
      | (exact clearContext_finalizedContexts_preserves now _ e
          (by rw [hpe]; exact hK) hf hor)
      | (exact (by rw [hpe]; exact hK : st1.finalizedContexts K = some ts))

theorem handleGeneralOrder_finalizedContexts_preserves {K : String} {ts : Int}
    (windowMs now : Int) (st : AggState) (e : OrderEvent) (ctx : AggContext)
    (hK : st.finalizedContexts K = some ts)
    (hf : ¬ ts < now - FINALIZED_CONTEXT_TTL_MS)
    (hor : isFinalStatus e.status = false ∨ aggregationKey e ≠ K) :
    ((OrderAggregator.handleGeneralOrder windowMs now st e ctx).1).finalizedContexts K =
      some ts := by
  simp only [OrderAggregator.handleGeneralOrder]
  repeat' split
  all_goals
    first
    | (exact clearContext_finalizedContexts_preserves now _ e hK hf hor)
    | (exact hK)

theorem handleStopLikeOrder_final_cases (windowMs now : Int) (st : AggState)
    (e : OrderEvent) (ctx : AggContext)
    (hfin : isFinalStatus e.status = true)
    (hnow : ¬ e.eventTimeMs < now - FINALIZED_CONTEXT_TTL_MS) :
    (OrderAggregator.handleStopLikeOrder windowMs now st e ctx).2 = [] ∨
      ((OrderAggregator.handleStopLikeOrder windowMs now st e ctx).1).finalizedContexts
        (aggregationKey e) = some e.eventTimeMs := by
  simp only [OrderAggregator.handleStopLikeOrder]
  split
  · exact Or.inl rfl
  · repeat' split
    all_goals
      first
      | (exact Or.inl rfl)
      | (exact Or.inr (clearContext_finalized_mark now _ e hfin hnow))
      | (exfalso
         rw [show e.status = "NEW" from by assumption] at hfin
         exact absurd hfin (by decide))

theorem handleGeneralOrder_final_cases (windowMs now : Int) (st : AggState)
    (e : OrderEvent) (ctx : AggContext)
    (hfin : isFinalStatus e.status = true)
    (hnow : ¬ e.eventTimeMs < now - FINALIZED_CONTEXT_TTL_MS) :
    (OrderAggregator.handleGeneralOrder windowMs now st e ctx).2 = [] ∨
      ((OrderAggregator.handleGeneralOrder windowMs now st e ctx).1).finalizedContexts
        (aggregationKey e) = some e.eventTimeMs := by
  simp only [OrderAggregator.handleGeneralOrder]
  repeat' split
  all_goals
    first
    | (exact Or.inl rfl)
    | (exact Or.inr (clearContext_finalized_mark now _ e hfin hnow))

theorem runHandlers_processedEvents (windowMs now : Int) (st2 : AggState)
    (e : OrderEvent) (p : OrderPresentation) :
    ((OrderAggregator.runHandlers windowMs now st2 e p).1).processedEvents =
      st2.processedEvents := by
  simp only [OrderAggregator.runHandlers]
  split <;>
    simp only [handleStopLikeOrder_processedEvents, handleGeneralOrder_processedEvents]

theorem runHandlers_finalizedContexts_preserves {K : String} {ts : Int}
    (windowMs now : Int) (st2 : AggState) (e : OrderEvent) (p : OrderPresentation)
    (hK : st2.finalizedContexts K = some ts)
    (hf : ¬ ts < now - FINALIZED_CONTEXT_TTL_MS)
    (hor : isFinalStatus e.status = false ∨ aggregationKey e ≠ K) :
    ((OrderAggregator.runHandlers windowMs now st2 e p).1).finalizedContexts K =
      some ts := by
  simp only [OrderAggregator.runHandlers]
  split
  · exact handleStopLikeOrder_finalizedContexts_preserves windowMs now _ e _ hK hf hor
  · exact handleGeneralOrder_finalizedContexts_preserves windowMs now _ e _ hK hf hor

theorem runHandlers_final_cases (windowMs now : Int) (st2 : AggState)
    (e : OrderEvent) (p : OrderPresentation)
    (hfin : isFinalStatus e.status = true)
    (hnow : ¬ e.eventTimeMs < now - FINALIZED_CONTEXT_TTL_MS) :
    (OrderAggregator.runHandlers windowMs now st2 e p).2 = [] ∨
      ((OrderAggregator.runHandlers windowMs now st2 e p).1).finalizedContexts
        (aggregationKey e) = some e.eventTimeMs := by
  simp only [OrderAggregator.runHandlers]
  split
  · exact handleStopLikeOrder_final_cases windowMs now _ e _ hfin hnow
  · exact handleGeneralOrder_final_cases windowMs now _ e _ hfin hnow

theorem handleFresh_marks (windowMs now : Int) (st1 : AggState) (e : OrderEvent)
    (p : OrderPresentation) (hnow : ¬ e.eventTimeMs < now - PROCESSED_EVENT_TTL_MS) :
    ((OrderAggregator.handleFresh windowMs now st1 e p).1).processedEvents
      (buildEventKey e) = some e.eventTimeMs := by
  simp only [OrderAggregator.handleFresh]
  split
  all_goals try split
  all_goals try split
  all_goals
    dsimp only
  all_goals
    rw [markEventProcessed_self (buildEventKey e) hnow]

theorem handleFresh_processedEvents_preserves {k : String} {ts : Int}
    (windowMs now : Int) (st1 : AggState) (e : OrderEvent) (p : OrderPresentation)
    (hk : k ≠ buildEventKey e) (h : st1.processedEvents k = some ts)
    (hf : ¬ ts < now - PROCESSED_EVENT_TTL_MS) :
    ((OrderAggregator.handleFresh windowMs now st1 e p).1).processedEvents k =
      some ts := by
  simp only [OrderAggregator.handleFresh]
  split
  all_goals try split
  all_goals try split
  all_goals
    dsimp only
  all_goals
    first
    | rw [markEventProcessed_keeps_ne e.eventTimeMs hk h hf]
    | (rw [markEventProcessed_keeps_ne e.eventTimeMs hk
          (by rw [runHandlers_processedEvents]; exact h) hf])

theorem handleFresh_finalizedContexts_preserves {K : String} {ts : Int}
    (windowMs now : Int) (st1 : AggState) (e : OrderEvent) (p : OrderPresentation)
    (hK : st1.finalizedContexts K = some ts)
    (hf : now - ts ≤ FINALIZED_CONTEXT_TTL_MS) :
    ((OrderAggregator.handleFresh windowMs now st1 e p).1).finalizedContexts K =
      some ts := by
  have hf' : ¬ ts < now - FINALIZED_CONTEXT_TTL_MS := by omega
  simp only [OrderAggregator.handleFresh]
  split
  · dsimp only
    exact hK
  · split
    · rename_i hfs
      split
      · dsimp only
        by_cases hKe : aggregationKey e = K
        · rw [hKe, ttlLookup_fresh now FINALIZED_CONTEXT_TTL_MS hK (by omega)]
          exact hK
        · rw [ttlLookup_snd_ne now FINALIZED_CONTEXT_TTL_MS (Ne.symm hKe)]
          exact hK
      · rename_i hIs
        dsimp only
        by_cases hKe : aggregationKey e = K
        · exfalso
          rw [hKe, ttlLookup_fresh now FINALIZED_CONTEXT_TTL_MS hK (by omega)] at hIs
          exact hIs rfl
        · refine runHandlers_finalizedContexts_preserves windowMs now _ e p ?_ hf'
            (Or.inr hKe)
          show (ttlLookup now FINALIZED_CONTEXT_TTL_MS st1.finalizedContexts
            (aggregationKey e)).2 K = some ts
          rw [ttlLookup_snd_ne now FINALIZED_CONTEXT_TTL_MS (Ne.symm hKe)]
          exact hK
    · rename_i hfs
      split
      · dsimp only
        exact hK
      · refine runHandlers_finalizedContexts_preserves windowMs now _ e p ?_ hf'
          (Or.inl (by simpa using hfs))
        show st1.finalizedContexts K = some ts
        exact hK

theorem handleFresh_final_cases (windowMs now : Int) (st1 : AggState)
    (e : OrderEvent) (p : OrderPresentation)
    (hfin : isFinalStatus e.status = true)
    (hnow : ¬ e.eventTimeMs < now - FINALIZED_CONTEXT_TTL_MS) :
    (OrderAggregator.handleFresh windowMs now st1 e p).2 = [] ∨
      ((OrderAggregator.handleFresh windowMs now st1 e p).1).finalizedContexts
        (aggregationKey e) = some e.eventTimeMs := by
  simp only [OrderAggregator.handleFresh]
  split
  · exact Or.inl rfl
  · split
    · exact Or.inl rfl
    · dsimp only
      rcases runHandlers_final_cases windowMs now _ e p hfin hnow with hc | hc
      · exact Or.inl hc
      · exact Or.inr hc

theorem handleFresh_finalized_drops {ts : Int} (windowMs now : Int)
    (st1 : AggState) (e : OrderEvent) (p : OrderPresentation)
    (hfin : isFinalStatus e.status = true)
    (hK : st1.finalizedContexts (aggregationKey e) = some ts)
    (hfr : now - ts ≤ FINALIZED_CONTEXT_TTL_MS) :
    (OrderAggregator.handleFresh windowMs now st1 e p).2 = [] := by
  simp only [OrderAggregator.handleFresh]
  split
  · rfl
  · split
    · rfl
    · rename_i hIs
      exfalso
      rw [ttlLookup_fresh now FINALIZED_CONTEXT_TTL_MS hK (by omega)] at hIs
      exact hIs rfl

theorem handleEvent_dup_drops {ts : Int} (windowMs now : Int) (st : AggState)
    (e : OrderEvent) (h : st.processedEvents (buildEventKey e) = some ts)
    (hle : now - ts ≤ PROCESSED_EVENT_TTL_MS) :
    (OrderAggregator.handleEvent windowMs now st e).2 = [] := by
  have htl := ttlLookup_fresh now PROCESSED_EVENT_TTL_MS h (by omega)
  simp [OrderAggregator.handleEvent, htl]

theorem handleEvent_marks (windowMs now : Int) (st : AggState) (e : OrderEvent)
    (h0 : st.processedEvents (buildEventKey e) = none)
    (hnow : ¬ e.eventTimeMs < now - PROCESSED_EVENT_TTL_MS) :
    ((OrderAggregator.handleEvent windowMs now st e).1).processedEvents
      (buildEventKey e) = some e.eventTimeMs := by
  have htl := ttlLookup_none now PROCESSED_EVENT_TTL_MS h0
  simp only [OrderAggregator.handleEvent, htl]
  split
  · rename_i hD
    simp at hD
  · exact handleFresh_marks windowMs now _ e _ hnow

theorem handleEvent_processedEvents_preserves {k : String} {ts : Int}
    (windowMs now : Int) (st : AggState) (e : OrderEvent)
    (h : st.processedEvents k = some ts) (hf : now - ts ≤ PROCESSED_EVENT_TTL_MS) :
    ((OrderAggregator.handleEvent windowMs now st e).1).processedEvents k = some ts := by
  have hf' : ¬ ts < now - PROCESSED_EVENT_TTL_MS := by omega
  by_cases hk : k = buildEventKey e
  · subst hk
    have htl := ttlLookup_fresh now PROCESSED_EVENT_TTL_MS h (by omega)
    simp only [OrderAggregator.handleEvent, htl]
    split
    · dsimp only
      exact h
    · rename_i hD
      simp at hD
  · have hp1 : (ttlLookup now PROCESSED_EVENT_TTL_MS st.processedEvents
        (buildEventKey e)).2 k = some ts := by
      rw [ttlLookup_snd_ne now PROCESSED_EVENT_TTL_MS hk]
      exact h
    simp only [OrderAggregator.handleEvent]
    split
    · dsimp only
      exact hp1
    · refine handleFresh_processedEvents_preserves windowMs now _ e _ hk ?_ hf'
      rw [resolvePresentation_processedEvents]
      exact hp1

theorem handleEvent_finalizedContexts_preserves {K : String} {ts : Int}
    (windowMs now : Int) (st : AggState) (e : OrderEvent)
    (hK : st.finalizedContexts K = some ts)
    (hf : now - ts ≤ FINALIZED_CONTEXT_TTL_MS) :
    ((OrderAggregator.handleEvent windowMs now st e).1).finalizedContexts K =
      some ts := by
  simp only [OrderAggregator.handleEvent]
  split
  · dsimp only
    exact hK
  · refine handleFresh_finalizedContexts_preserves windowMs now _ e _ ?_ hf
    rw [resolvePresentation_finalizedContexts]
    exact hK

theorem handleEvent_final_cases (windowMs now : Int) (st : AggState) (e : OrderEvent)
    (hfin : isFinalStatus e.status = true)
    (hnow : ¬ e.eventTimeMs < now - FINALIZED_CONTEXT_TTL_MS) :
    (OrderAggregator.handleEvent windowMs now st e).2 = [] ∨
      ((OrderAggregator.handleEvent windowMs now st e).1).finalizedContexts
        (aggregationKey e) = some e.eventTimeMs := by
  simp only [OrderAggregator.handleEvent]
  split
  · exact Or.inl rfl
  · exact handleFresh_final_cases windowMs now _ e _ hfin hnow

theorem handleEvent_finalized_drops {ts : Int} (windowMs now : Int) (st : AggState)
    (e : OrderEvent) (hfin : isFinalStatus e.status = true)
    (hK : st.finalizedContexts (aggregationKey e) = some ts)
    (hfr : now - ts ≤ FINALIZED_CONTEXT_TTL_MS) :
    (OrderAggregator.handleEvent windowMs now st e).2 = [] := by
  simp only [OrderAggregator.handleEvent]
  split
  · rfl
  · refine handleFresh_finalized_drops windowMs now _ e _ hfin ?_ hfr
    rw [resolvePresentation_finalizedContexts]
    exact hK

theorem runTrace_processedEvents_preserves (windowMs : Int) (st : AggState)
    (trace : List (Int × OrderEvent)) {k : String} {ts : Int}
    (h : st.processedEvents k = some ts)
    (htr : ∀ q ∈ trace, q.1 - ts ≤ PROCESSED_EVENT_TTL_MS) :
    (runTrace windowMs st trace).processedEvents k = some ts := by
  induction trace generalizing st with
  | nil => exact h
  | cons q rest ih =>
    simp only [runTrace, List.foldl_cons]
    exact ih _ (handleEvent_processedEvents_preserves windowMs q.1 st q.2 h
      (htr q (List.mem_cons_self q rest)))
      (fun r hr => htr r (List.mem_cons_of_mem q hr))

theorem runTrace_finalizedContexts_preserves (windowMs : Int) (st : AggState)
    (trace : List (Int × OrderEvent)) {K : String} {ts : Int}
    (h : st.finalizedContexts K = some ts)
    (htr : ∀ q ∈ trace, q.1 - ts ≤ FINALIZED_CONTEXT_TTL_MS) :
    (runTrace windowMs st trace).finalizedContexts K = some ts := by
  induction trace generalizing st with
  | nil => exact h
  | cons q rest ih =>
    simp only [runTrace, List.foldl_cons]
    exact ih _ (handleEvent_finalizedContexts_preserves windowMs q.1 st q.2 h
      (htr q (List.mem_cons_self q rest)))
      (fun r hr => htr r (List.mem_cons_of_mem q hr))


/-- C1 (amended): replaying the identical order event through
`OrderAggregator.handleEvent` yields no further notification as long as both
the first processing and the replay happen within 60 s of the event's
`eventTime`: the dedup entry stores `event.eventTime.getTime()`, so the
suppression window is measured from the event time, not from the moment of
first processing. -/
theorem orderAggregator_replay_suppressed (windowMs now1 now2 : Int)
    (st0 : AggState) (e : OrderEvent) (trace : List (Int × OrderEvent))
    (h0 : st0.processedEvents (buildEventKey e) = none)
    (h1 : now1 - e.eventTimeMs ≤ 60000)
    (htr : ∀ q ∈ trace, q.1 - e.eventTimeMs ≤ 60000)
    (h2 : now2 - e.eventTimeMs ≤ 60000) :
    (OrderAggregator.handleEvent windowMs now2
      (runTrace windowMs (OrderAggregator.handleEvent windowMs now1 st0 e).1 trace)
      e).2 = [] := by
  have hT : PROCESSED_EVENT_TTL_MS = 60000 := rfl
  have hmark := handleEvent_marks windowMs now1 st0 e h0 (by omega)
  have hkeep := runTrace_processedEvents_preserves windowMs _ trace hmark
    (fun q hq => by have := htr q hq; omega)
  exact handleEvent_dup_drops windowMs now2 _ e hkeep (by omega)


theorem orderAggregator_replay_suppressed_witness :
    initialAggState.processedEvents (buildEventKey evSlCanceled) = none ∧
    (OrderAggregator.handleEvent 3000 50000
      (runTrace 3000
        (OrderAggregator.handleEvent 3000 1000 initialAggState evSlCanceled).1 [])
      evSlCanceled).2 = [] :=
  ⟨rfl, orderAggregator_replay_suppressed 3000 1000 50000 initialAggState
    evSlCanceled [] rfl (by decide) (by simp) (by decide)⟩

/-- C1 counterexample: a stop-loss cancellation whose `eventTime` lies more
than 60 s in the past is notified on first processing at `now = 70000` and
again when the identical event is replayed 30 s later at `now = 100000`,
inside the claim's 60-second window measured from the first processing: the
stored dedup timestamp is the stale `eventTime`, so the entry is evicted and
the replay is notified again. -/
theorem orderAggregator_replay_after_eventTime_window_reemits :
    (OrderAggregator.handleEvent 3000 70000 initialAggState evSlStale).2 ≠ [] ∧
    (OrderAggregator.handleEvent 3000 100000
      (OrderAggregator.handleEvent 3000 70000 initialAggState evSlStale).1
      evSlStale).2 ≠ [] := by
  decide

/-- C3 (amended): once a terminal event for context key K has been notified,
a further event bearing K that also carries a terminal status is dropped
without notification while the finalized-context entry is fresh; the entry
stores the terminal event's `eventTime`, so the 60-second window is measured
from that event time, and only terminal-status events consult the
finalized-context table at all. -/
theorem orderAggregator_finalized_drops_terminal (windowMs now1 now2 : Int)
    (st0 : AggState) (e1 e2 : OrderEvent) (trace : List (Int × OrderEvent))
    (hfin1 : isFinalStatus e1.status = true)
    (h1 : now1 - e1.eventTimeMs ≤ 60000)
    (hemit : (OrderAggregator.handleEvent windowMs now1 st0 e1).2 ≠ [])
    (htr : ∀ q ∈ trace, q.1 - e1.eventTimeMs ≤ 60000)
    (hkey : aggregationKey e2 = aggregationKey e1)
    (hfin2 : isFinalStatus e2.status = true)
    (h2 : now2 - e1.eventTimeMs ≤ 60000) :
    (OrderAggregator.handleEvent windowMs now2
      (runTrace windowMs (OrderAggregator.handleEvent windowMs now1 st0 e1).1 trace)
      e2).2 = [] := by
  have hT : FINALIZED_CONTEXT_TTL_MS = 60000 := rfl
  rcases handleEvent_final_cases windowMs now1 st0 e1 hfin1 (by omega) with hc | hc
  · exact absurd hc hemit
  · have hkeep := runTrace_finalizedContexts_preserves windowMs _ trace hc
      (fun q hq => by have := htr q hq; omega)
    have hkey2 : (runTrace windowMs
        (OrderAggregator.handleEvent windowMs now1 st0 e1).1 trace).finalizedContexts
        (aggregationKey e2) = some e1.eventTimeMs := by
      rw [hkey]
      exact hkeep
    exact handleEvent_finalized_drops windowMs now2 _ e2 hfin2 hkey2 (by omega)


theorem orderAggregator_finalized_drops_terminal_witness :
    isFinalStatus evSlCanceled.status = true ∧
    (OrderAggregator.handleEvent 3000 1000 initialAggState evSlCanceled).2 ≠ [] ∧
    aggregationKey evSlFilled = aggregationKey evSlCanceled ∧
    isFinalStatus evSlFilled.status = true ∧
    (OrderAggregator.handleEvent 3000 2000
      (runTrace 3000
        (OrderAggregator.handleEvent 3000 1000 initialAggState evSlCanceled).1 [])
      evSlFilled).2 = [] :=
  ⟨by decide, by decide, rfl, by decide,
   orderAggregator_finalized_drops_terminal 3000 1000 2000 initialAggState
     evSlCanceled evSlFilled [] (by decide) (by decide) (by decide) (by simp) rfl
     (by decide) (by decide)⟩

/-- C3 counterexample: after the stop order's cancellation is notified at
`now = 1000`, a `NEW` event bearing the same aggregation key one second later
is NOT dropped: the finalized-context check only runs for terminal statuses,
so the aggregator emits a fresh `SLTP_NEW` notification inside the claimed
60-second window. -/
theorem orderAggregator_finalized_context_new_event_reemits :
    aggregationKey evSlNew = aggregationKey evSlCanceled ∧
    (OrderAggregator.handleEvent 3000 1000 initialAggState evSlCanceled).2 ≠ [] ∧
    (OrderAggregator.handleEvent 3000 2000
      (OrderAggregator.handleEvent 3000 1000 initialAggState evSlCanceled).1
      evSlNew).2 ≠ [] := by
  decide
